import Mathlib

/-!
# ObjectRuntime — verification of the execution-engine specification

A shallow embedding of the ObjectIR runtime (`src/include/objectir_runtime.hpp`,
`src/include/objectir_type_names.hpp`, `src/src/objectir_runtime.cpp`,
`src/src/instruction_executor.cpp`) in Lean 4, together with theorems settling
the frozen claims about the natural-language specification.

Strings are modelled as `List Char` so that the character-level operations of
the C++ code (trimming, ASCII lowering, concatenation) stay fully executable
and provable.  C++ exceptions are modelled by the `Except` monad; the distinct
`throw std::runtime_error(...)` sites become constructors of `RuntimeError`.
-/

namespace ObjectIR

/-- C++ `std::string`, modelled as a list of characters. -/
abbrev Str := List Char

/-! ## Type-name normalization (`objectir_type_names.hpp`) -/

/-- `std::isspace` in the default C locale: space, `\t`, `\n`, `\v`, `\f`, `\r`.
Embeds the whitespace test used by `TypeNames::Trim` (objectir_type_names.hpp:15,20). -/
def IsSpaceChar (c : Char) : Bool :=
  c = ' ' || c = '\t' || c = '\n' || c = Char.ofNat 11 || c = Char.ofNat 12 || c = '\r'

/-- `TypeNames::Trim` (objectir_type_names.hpp:13-25): drop leading whitespace,
then drop trailing whitespace. -/
def Trim (s : Str) : Str :=
  ((s.dropWhile IsSpaceChar).reverse.dropWhile IsSpaceChar).reverse

/-- `std::tolower` in the default C locale on an ASCII upper-case letter. -/
def ToLowerChar (c : Char) : Char :=
  if 'A' ≤ c ∧ c ≤ 'Z' then Char.ofNat (c.toNat + 32) else c

/-- `TypeNames::ToLowerAscii` (objectir_type_names.hpp:27-34). -/
def ToLowerAscii (s : Str) : Str := s.map ToLowerChar

/-- Alias test of objectir_type_names.hpp:43. -/
def isVoidAlias (l : Str) : Bool := l = "system.void".toList || l = "void".toList

/-- Alias test of objectir_type_names.hpp:44. -/
def isStringAlias (l : Str) : Bool := l = "system.string".toList || l = "string".toList

/-- Alias test of objectir_type_names.hpp:45. -/
def isBoolAlias (l : Str) : Bool :=
  l = "system.boolean".toList || l = "bool".toList || l = "boolean".toList

/-- Alias test of objectir_type_names.hpp:47. -/
def isInt32Alias (l : Str) : Bool :=
  l = "system.int32".toList || l = "int32".toList || l = "int".toList

/-- Alias test of objectir_type_names.hpp:48. -/
def isInt64Alias (l : Str) : Bool :=
  l = "system.int64".toList || l = "int64".toList || l = "long".toList

/-- Alias test of objectir_type_names.hpp:51. -/
def isFloat32Alias (l : Str) : Bool :=
  l = "system.single".toList || l = "single".toList || l = "float".toList ||
    l = "float32".toList

/-- Alias test of objectir_type_names.hpp:52. -/
def isFloat64Alias (l : Str) : Bool :=
  l = "system.double".toList || l = "double".toList || l = "float64".toList

/-- Alias test of objectir_type_names.hpp:54. -/
def isUInt8Alias (l : Str) : Bool :=
  l = "system.byte".toList || l = "byte".toList || l = "uint8".toList

/-- Alias test of objectir_type_names.hpp:56. -/
def isObjectAlias (l : Str) : Bool := l = "system.object".toList || l = "object".toList

/-- The alias chain of `TypeNames::NormalizeTypeName` (objectir_type_names.hpp:43-56):
the early `return` taken for a recognized lower-cased alias, `none` when the chain
falls through to the final `return trimmed`. -/
def aliasLookup (lower : Str) : Option Str :=
  if isVoidAlias lower then some "void".toList
  else if isStringAlias lower then some "string".toList
  else if isBoolAlias lower then some "bool".toList
  else if isInt32Alias lower then some "int32".toList
  else if isInt64Alias lower then some "int64".toList
  else if isFloat32Alias lower then some "float32".toList
  else if isFloat64Alias lower then some "float64".toList
  else if isUInt8Alias lower then some "uint8".toList
  else if isObjectAlias lower then some "object".toList
  else none

/-- `TypeNames::NormalizeTypeName` (objectir_type_names.hpp:36-60): trim, and if
the lower-cased result is a known CLR-style alias return the canonical primitive
spelling; otherwise preserve the trimmed original. -/
def NormalizeTypeName (rawName : Str) : Str :=
  let trimmed := Trim rawName
  if trimmed = [] then trimmed
  else
    match aliasLookup (ToLowerAscii trimmed) with
    | some canon => canon
    | none => trimmed

/-- `TypeNames::NormalizeTypeNames` (objectir_type_names.hpp:62-69). -/
def NormalizeTypeNames (rawNames : List Str) : List Str :=
  rawNames.map NormalizeTypeName

/-- The canonical primitive spellings that `NormalizeTypeName` can introduce. -/
def canonicalSpellings : List Str :=
  ["void".toList, "string".toList, "bool".toList, "int32".toList, "int64".toList,
   "float32".toList, "float64".toList, "uint8".toList, "object".toList]

/-- Disjunction of all nine alias tests of `NormalizeTypeName`. -/
def matchesAnyAlias (l : Str) : Bool :=
  isVoidAlias l || isStringAlias l || isBoolAlias l || isInt32Alias l ||
    isInt64Alias l || isFloat32Alias l || isFloat64Alias l || isUInt8Alias l ||
    isObjectAlias l

/-! ### Idempotence machinery for `Trim` -/

theorem dropWhile_self (p : Char → Bool) (l : Str) :
    (l.dropWhile p).dropWhile p = l.dropWhile p := by
  induction l with
  | nil => rfl
  | cons a t ih =>
    cases hpa : p a with
    | true => simpa [List.dropWhile_cons, hpa] using ih
    | false => simp [List.dropWhile_cons, hpa]

theorem dropWhile_head_false (p : Char → Bool) (l : Str) (a : Char) (t : Str)
    (h : l.dropWhile p = a :: t) : p a = false := by
  induction l with
  | nil => simp at h
  | cons x xs ih =>
    cases hpx : p x with
    | true =>
      rw [List.dropWhile_cons, if_pos hpx] at h
      exact ih h
    | false =>
      rw [List.dropWhile_cons, if_neg (by simp [hpx])] at h
      cases h
      exact hpx

theorem exists_append_dropWhile (p : Char → Bool) (l : Str) :
    ∃ t, t ++ l.dropWhile p = l := by
  induction l with
  | nil => exact ⟨[], rfl⟩
  | cons a t ih =>
    cases hpa : p a with
    | true =>
      obtain ⟨u, hu⟩ := ih
      exact ⟨a :: u, by simp [List.dropWhile_cons, hpa, hu]⟩
    | false => exact ⟨[], by simp [List.dropWhile_cons, hpa]⟩

theorem Trim_dropWhile (s : Str) : (Trim s).dropWhile IsSpaceChar = Trim s := by
  unfold Trim
  set m := s.dropWhile IsSpaceChar with hm
  set q := m.reverse.dropWhile IsSpaceChar with hq
  obtain ⟨u, hu⟩ := exists_append_dropWhile IsSpaceChar m.reverse
  rw [← hq] at hu
  have hmrq : m = q.reverse ++ u.reverse := by
    have := congrArg List.reverse hu
    simpa using this.symm
  cases hr : q.reverse with
  | nil => simp
  | cons a r' =>
    have hmc : m = a :: (r' ++ u.reverse) := by rw [hmrq, hr]; simp
    have hmfix : m.dropWhile IsSpaceChar = m := by rw [hm]; exact dropWhile_self _ _
    have ha : IsSpaceChar a = false := by
      apply dropWhile_head_false IsSpaceChar m a (r' ++ u.reverse)
      rw [hmfix, hmc]
    rw [List.dropWhile_cons, if_neg (by simp [ha])]

theorem Trim_reverse_dropWhile (s : Str) :
    (Trim s).reverse.dropWhile IsSpaceChar = (Trim s).reverse := by
  unfold Trim
  simp only [List.reverse_reverse]
  exact dropWhile_self _ _

/-- `Trim` is idempotent. -/
theorem Trim_idem (s : Str) : Trim (Trim s) = Trim s := by
  conv_lhs => rw [Trim]
  rw [Trim_dropWhile, Trim_reverse_dropWhile]
  simp

/-! ### Idempotence of `NormalizeTypeName` -/

theorem aliasLookup_mem (l c : Str) (h : aliasLookup l = some c) :
    c ∈ canonicalSpellings := by
  unfold aliasLookup at h
  split_ifs at h <;> simp_all [canonicalSpellings]

theorem normalize_canonical (c : Str) (hc : c ∈ canonicalSpellings) :
    NormalizeTypeName c = c := by
  simp only [canonicalSpellings, List.mem_cons, List.not_mem_nil, or_false] at hc
  rcases hc with rfl | rfl | rfl | rfl | rfl | rfl | rfl | rfl | rfl <;> decide

/-- C9: the type-name normalization function is idempotent:
`NormalizeTypeName (NormalizeTypeName t) = NormalizeTypeName t` for every
type-name string `t`. -/
theorem C9_normalize_idempotent (t : Str) :
    NormalizeTypeName (NormalizeTypeName t) = NormalizeTypeName t := by
  by_cases h0 : Trim t = []
  · have h1 : NormalizeTypeName t = Trim t := by
      unfold NormalizeTypeName; simp [h0]
    rw [h1, h0]; decide
  · cases hA : aliasLookup (ToLowerAscii (Trim t)) with
    | some c =>
      have h1 : NormalizeTypeName t = c := by
        unfold NormalizeTypeName; simp [h0, hA]
      rw [h1]
      exact normalize_canonical c (aliasLookup_mem _ _ hA)
    | none =>
      have h1 : NormalizeTypeName t = Trim t := by
        unfold NormalizeTypeName; simp [h0, hA]
      rw [h1]
      unfold NormalizeTypeName
      simp [Trim_idem t, h0, hA]

/-! ## Runtime errors

Each constructor corresponds to a family of `throw std::runtime_error(...)`
sites in the source.  `brkSignal`/`contSignal` model the `BreakSignal` /
`ContinueSignal` exceptions (instruction_executor.cpp:13-19) when they escape
uncaught past a loop.  `fuelExhausted` is an artifact of the embedding: the C++
interpreter may diverge, the Lean model runs on fuel.  The `…Unmodeled`
constructors mark behavior outside this embedding (host native functions,
the object heap, float-literal text parsing); no claim exercises them. -/
inductive RuntimeError where
  | stackUnderflow
  | typeMismatch
  | cannotConvertToDouble
  | cannotConvertToInt64
  | divisionByZero
  | unsupportedOperation
  | localNotFound
  | argumentNotFound
  | outOfRange
  | branchTargetNotFound
  | branchTargetOutOfRange
  | branchOutsideDispatcher
  | unknownOpcode
  | missingMetadata
  | badConditionKind
  | missingComparison
  | unsupportedComparison
  | classNotFound
  | methodNotFound
  | ambiguousOverload
  | noMatchingOverload
  | noImplementation
  | unhandledThrow
  | invalidConstant
  | brkSignal
  | contSignal
  | nativeUnmodeled
  | opcodeUnmodeled
  | floatTextUnmodeled
  | fuelExhausted
  deriving DecidableEq

/-! ## Value (`objectir_runtime.hpp:122-156`, `objectir_runtime.cpp:345-412`)

`std::variant<std::nullptr_t, int32_t, int64_t, float, double, bool,
std::string, ObjectRef>`.  Machine integers are embedded as `Int` whose
arithmetic wraps explicitly (`wrap32`/`wrap64`); `float`/`double` are embedded
as Lean `Float` (no claim depends on a float computation's result).  An
`ObjectRef` is a shared pointer, possibly null: it is embedded as
`Option Nat` (a heap id or the null reference).  Note `Value(ObjectRef)`
(objectir_runtime.cpp:352) stores the object alternative even when the
pointer inside is null, so `IsNull` is about the variant tag only. -/
inductive Value where
  | null
  | int32 (i : Int)
  | int64 (i : Int)
  | float32 (f : Float)
  | float64 (f : Float)
  | bool (b : Bool)
  | str (s : Str)
  | obj (o : Option Nat)

/-- Two's-complement wrap-around of `int32_t` arithmetic. -/
def wrap32 (n : Int) : Int := (n + 2 ^ 31) % 2 ^ 32 - 2 ^ 31

/-- Two's-complement wrap-around of `int64_t` arithmetic. -/
def wrap64 (n : Int) : Int := (n + 2 ^ 63) % 2 ^ 64 - 2 ^ 63

def Value.IsNull : Value → Bool | .null => true | _ => false
def Value.IsInt32 : Value → Bool | .int32 _ => true | _ => false
def Value.IsInt64 : Value → Bool | .int64 _ => true | _ => false
def Value.IsFloat32 : Value → Bool | .float32 _ => true | _ => false
def Value.IsFloat64 : Value → Bool | .float64 _ => true | _ => false
def Value.IsBool : Value → Bool | .bool _ => true | _ => false
def Value.IsString : Value → Bool | .str _ => true | _ => false
def Value.IsObject : Value → Bool | .obj _ => true | _ => false

/-- `Value::AsInt32` (objectir_runtime.cpp:363-366): throws on tag mismatch. -/
def Value.AsInt32 : Value → Except RuntimeError Int
  | .int32 i => .ok i | _ => .error .typeMismatch

/-- `Value::AsInt64` (objectir_runtime.cpp:368-371). -/
def Value.AsInt64 : Value → Except RuntimeError Int
  | .int64 i => .ok i | _ => .error .typeMismatch

/-- `Value::AsFloat32` (objectir_runtime.cpp:373-376). -/
def Value.AsFloat32 : Value → Except RuntimeError Float
  | .float32 f => .ok f | _ => .error .typeMismatch

/-- `Value::AsFloat64` (objectir_runtime.cpp:378-381). -/
def Value.AsFloat64 : Value → Except RuntimeError Float
  | .float64 f => .ok f | _ => .error .typeMismatch

/-- `Value::AsBool` (objectir_runtime.cpp:383-386). -/
def Value.AsBool : Value → Except RuntimeError Bool
  | .bool b => .ok b | _ => .error .typeMismatch

/-- `Value::AsString` (objectir_runtime.cpp:388-391): throws
`"Value is not string"` on any non-string variant. -/
def Value.AsString : Value → Except RuntimeError Str
  | .str s => .ok s | _ => .error .typeMismatch

/-- C++ float→integer conversion (`static_cast<int64_t>`), truncation toward
zero; used only on paths no claim evaluates. -/
def floatTruncToInt (f : Float) : Int :=
  if f < 0 then -(Int.ofNat (-f).toUInt64.toNat) else Int.ofNat f.toUInt64.toNat

/-- `InstructionExecutor::ValueToDouble` (instruction_executor.cpp:961-967). -/
def ValueToDouble : Value → Except RuntimeError Float
  | .int32 i => .ok (Float.ofInt i)
  | .int64 i => .ok (Float.ofInt i)
  | .float32 f => .ok f
  | .float64 f => .ok f
  | _ => .error .cannotConvertToDouble

/-- `InstructionExecutor::ValueToInt64` (instruction_executor.cpp:969-975). -/
def ValueToInt64 : Value → Except RuntimeError Int
  | .int32 i => .ok i
  | .int64 i => .ok i
  | .float32 f => .ok (floatTruncToInt f)
  | .float64 f => .ok (floatTruncToInt f)
  | _ => .error .cannotConvertToInt64

/-- `InstructionExecutor::ValueToBool` (instruction_executor.cpp:1226-1252):
total, never throws. -/
def ValueToBool : Value → Bool
  | .bool b => b
  | .null => false
  | .int32 i => i ≠ 0
  | .int64 i => i ≠ 0
  | .float32 f => f != 0.0
  | .float64 f => f != 0.0
  | .str s => !s.isEmpty
  | .obj _ => true

/-- Decimal text of an integer, modelling `std::to_string` on
`int32_t`/`int64_t`. -/
def intToDec (i : Int) : Str := (toString i).toList

/-- `ValueToString` (instruction_executor.cpp:85-111): the display string used
by `Console.WriteLine`.  `std::to_string` on floats is not modelled (no claim
prints a float); every other variant follows the source. -/
def ValueToString : Value → Except RuntimeError Str
  | .null => .ok "null".toList
  | .str s => .ok s
  | .int32 i => .ok (intToDec i)
  | .int64 i => .ok (intToDec i)
  | .float32 _ => .error .floatTextUnmodeled
  | .float64 _ => .error .floatTextUnmodeled
  | .bool b => .ok (if b then "true".toList else "false".toList)
  | .obj _ => .ok "<object>".toList

/-! ## Opcodes and instructions (`ir_instruction.hpp` via its uses)

The repository's `ir_instruction.hpp` declares `OpCode`, `Instruction`,
`CallTarget`, `FieldTarget`; its field inventory is fully determined by the
uses in `instruction_executor.cpp` (decoder lines 239-427, executor lines
429-753) and `objectir_runtime.cpp`.  Reserved-word collisions are renamed:
`if` → `ifOp`, `while` → `whileOp`, `break` → `brk`, `continue` → `cont`,
`throw` → `throwOp`. -/
inductive OpCode where
  | nop | dup | pop
  | ldarg | ldloc | ldfld | ldcon | ldstr
  | ldi4 | ldi8 | ldr4 | ldr8 | ldtrue | ldfalse | ldnull
  | stloc | stfld | starg
  | add | sub | mul | div | rem | neg
  | ceq | cne | clt | cle | cgt | cge
  | ret | br | brtrue | brfalse
  | beq | bne | bgt | blt | bge | ble
  | ifOp | newobj | call | callvirt | castclass | isinst
  | newarr | ldelem | stelem | ldlen
  | brk | cont | throwOp | whileOp
  deriving DecidableEq

/-- `Instruction::ConditionData::kind` values. -/
inductive ConditionKind where
  | noneKind | stack | binary | expression
  deriving DecidableEq

/-- `CallTarget` (glossary: declaringType, name, returnType, parameterTypes). -/
structure CallTarget where
  declaringType : Str
  name : Str
  returnType : Str
  parameterTypes : List Str

/-- `FieldTarget` (declaringType, name, type). -/
structure FieldTarget where
  declaringType : Str
  name : Str
  type : Str

/-- The non-recursive operand slots of `Instruction`. -/
structure InstrCore where
  opCode : OpCode
  identifier : Str := []
  operandInt : Int := 0
  hasOperandInt : Bool := false
  operandDouble : Float := 0.0
  operandString : Str := []
  hasConstant : Bool := false
  constantType : Str := []
  constantRawValue : Str := []
  constantBool : Bool := false
  constantIsNull : Bool := false
  fieldTarget : Option FieldTarget := none
  callTarget : Option CallTarget := none

/-- `Instruction::ConditionData`, parameterized by the instruction type to
permit the nested recursion. -/
structure ConditionData (I : Type) where
  kind : ConditionKind := .noneKind
  comparisonOp : OpCode := .nop
  setupInstructions : List I := []
  expressionInstructions : List I := []

/-- `Instruction::WhileData`. -/
structure WhileData (I : Type) where
  condition : ConditionData I
  body : List I

/-- `Instruction::IfData`. -/
structure IfData (I : Type) where
  thenBlock : List I
  elseBlock : List I

/-- `Instruction`: core slots plus the recursive structured-block data. -/
inductive Instruction where
  | mk (core : InstrCore) (whileData : Option (WhileData Instruction))
      (ifData : Option (IfData Instruction))

def Instruction.core : Instruction → InstrCore | .mk c _ _ => c
def Instruction.whileData : Instruction → Option (WhileData Instruction)
  | .mk _ w _ => w
def Instruction.ifData : Instruction → Option (IfData Instruction)
  | .mk _ _ i => i
def Instruction.opCode (i : Instruction) : OpCode := i.core.opCode

/-! ## Types, methods, classes (`objectir_runtime.hpp:83-381`)

`TypeReference`'s class alternative only ever reaches the claims through
`TypeNames::GetQualifiedClassName`, which reads the class's raw name and its
namespace; the embedding records exactly those two strings.  The array
alternative (`_elementType`) is omitted: no claim touches arrays. -/

structure ClassNameInfo where
  rawName : Str
  ns : Str

/-- The primitive type tags (objectir_runtime.hpp:69-80). -/
inductive PrimitiveType where
  | int32 | int64 | float32 | float64 | bool | void | string | uint8 | object
  deriving DecidableEq

/-- `TypeReference` (objectir_runtime.hpp:83-115). -/
structure TypeRef where
  isPrimitive : Bool := true
  primitiveType : PrimitiveType := .void
  classType : Option ClassNameInfo := none

/-- The segment after the last `'.'` (`find_last_of('.')` + `substr(dot+1)`);
the whole string when no dot occurs. -/
def lastSegment (s : Str) : Str :=
  if '.' ∈ s then (s.reverse.takeWhile (fun c => c ≠ '.')).reverse else s

/-- `TypeNames::GetQualifiedClassName` (objectir_type_names.hpp:71-85) on a
non-null class reference. -/
def GetQualifiedClassName (cls : ClassNameInfo) : Str :=
  let simpleName := lastSegment cls.rawName
  if cls.ns = [] then cls.rawName else cls.ns ++ ".".toList ++ simpleName

/-- `TypeNames::CanonicalTypeName` (objectir_type_names.hpp:87-109). -/
def CanonicalTypeName (type : TypeRef) : Str :=
  if type.isPrimitive then
    match type.primitiveType with
    | .int32 => "int32".toList
    | .int64 => "int64".toList
    | .float32 => "float32".toList
    | .float64 => "float64".toList
    | .bool => "bool".toList
    | .void => "void".toList
    | .string => "string".toList
    | .uint8 => "uint8".toList
    | .object => "object".toList
  else
    match type.classType with
    | some cls => GetQualifiedClassName cls
    | none => "object".toList

/-- Opaque handle for a `NativeMethodImpl` (`std::function`, a host function);
only its presence matters to the claims. -/
structure NativeTag where
  id : Nat

/-- `Method` (objectir_runtime.hpp:293-329). -/
structure MethodData where
  name : Str
  returnType : TypeRef
  isStatic : Bool := false
  isVirtual : Bool := false
  parameters : List (Str × TypeRef) := []
  locals : List (Str × TypeRef) := []
  instructions : List Instruction := []
  nativeImpl : Option NativeTag := none
  labelMap : List (Str × Nat) := []

/-- `Method::HasInstructions` (objectir_runtime.hpp:306). -/
def MethodData.HasInstructions (m : MethodData) : Bool := !m.instructions.isEmpty

/-- `Method::SetInstructions` (objectir_runtime.cpp:466-468): replaces the
instruction list and touches nothing else. -/
def MethodData.SetInstructions (m : MethodData) (instrs : List Instruction) :
    MethodData :=
  { m with instructions := instrs }

/-- `Method::SetNativeImpl` (objectir_runtime.hpp:311): assigns the native
implementation and touches nothing else. -/
def MethodData.SetNativeImpl (m : MethodData) (impl : NativeTag) : MethodData :=
  { m with nativeImpl := some impl }

/-- One `Class` object without its base link (objectir_runtime.hpp:335-381;
the `interfaces` set is omitted: no claim touches it). -/
structure ClassLayer where
  name : Str
  ns : Str := []
  fields : List (Str × TypeRef) := []
  methods : List MethodData := []
  isAbstract : Bool := false
  isSealed : Bool := false

/-- A class together with its base classes: the C++ pointer chain
`cls → cls->GetBaseClass() → …`, most-derived layer first.  A null `ClassRef`
is the empty chain. -/
abbrev ClassChain := List ClassLayer

/-- `CollectMethodsByName` (objectir_runtime.cpp:955-965): every method of the
given name walking this class then its bases. -/
def CollectMethodsByName (cls : ClassChain) (name : Str) : List MethodData :=
  (cls.map (fun layer => layer.methods.filter (fun m => m.name = name))).flatten

/-! ## Execution context (`objectir_runtime.hpp:468-500`,
`objectir_runtime.cpp:549-668`) -/

/-- Assignment into a string-keyed map (`std::unordered_map` `operator[]=`):
replaces an existing binding, else appends. -/
def mapInsert {α : Type} (m : List (Str × α)) (k : Str) (v : α) :
    List (Str × α) :=
  if m.any (fun p => p.1 = k) then
    m.map (fun p => if p.1 = k then (k, v) else p)
  else m ++ [(k, v)]

/-- Map lookup (`find`). -/
def lookupAssoc {α : Type} (m : List (Str × α)) (k : Str) : Option α :=
  (m.find? (fun p => p.1 = k)).map (fun p => p.2)

/-- The `name → index` maps built by the `ExecutionContext` constructor
(objectir_runtime.cpp:556-575): `map[names[i]] = i` for each `i` in order. -/
def buildIndices (names : List Str) : List (Str × Nat) :=
  (names.enum).foldl (fun m p => mapInsert m p.2 p.1) []

/-- `ExecutionContext` (objectir_runtime.hpp:468-500).  The operand stack is a
`std::vector` used back-to-front; here the list head is the stack top. -/
structure ExecutionContext where
  method : MethodData
  stack : List Value := []
  locals : List Value := []
  arguments : List Value := []
  thisRef : Option Nat := none
  localIndices : List (Str × Nat) := []
  parameterIndices : List (Str × Nat) := []

namespace ExecutionContext

/-- The `ExecutionContext` constructor (objectir_runtime.cpp:549-575):
pre-size locals and arguments from the method's declarations and build the
name→index maps. -/
def create (method : MethodData) : ExecutionContext :=
  { method := method
    stack := []
    locals := List.replicate method.locals.length Value.null
    arguments := List.replicate method.parameters.length Value.null
    thisRef := none
    localIndices := buildIndices (method.locals.map (fun p => p.1))
    parameterIndices := buildIndices (method.parameters.map (fun p => p.1)) }

/-- `PushStack` (objectir_runtime.cpp:577-579). -/
def PushStack (ctx : ExecutionContext) (v : Value) : ExecutionContext :=
  { ctx with stack := v :: ctx.stack }

/-- `PopStack` (objectir_runtime.cpp:581-588): fails with `StackUnderflow`
on an empty stack. -/
def PopStack (ctx : ExecutionContext) :
    Except RuntimeError (Value × ExecutionContext) :=
  match ctx.stack with
  | [] => .error .stackUnderflow
  | v :: rest => .ok (v, { ctx with stack := rest })

/-- `PeekStack` (objectir_runtime.cpp:590-595). -/
def PeekStack (ctx : ExecutionContext) : Except RuntimeError Value :=
  match ctx.stack with
  | [] => .error .stackUnderflow
  | v :: _ => .ok v

/-- `SetLocal(size_t, Value)` (objectir_runtime.cpp:597-602): grows the
locals vector (default-filling with the null Value) before assigning. -/
def SetLocalIdx (ctx : ExecutionContext) (i : Nat) (v : Value) :
    ExecutionContext :=
  let ls :=
    if ctx.locals.length ≤ i then
      ctx.locals ++ List.replicate (i + 1 - ctx.locals.length) Value.null
    else ctx.locals
  { ctx with locals := ls.set i v }

/-- `GetLocal(size_t)` (objectir_runtime.cpp:604-609): `OutOfRange` past the
end. -/
def GetLocalIdx (ctx : ExecutionContext) (i : Nat) :
    Except RuntimeError Value :=
  match ctx.locals.get? i with
  | some v => .ok v
  | none => .error .outOfRange

/-- `SetLocal(string, Value)` (objectir_runtime.cpp:611-619). -/
def SetLocalName (ctx : ExecutionContext) (name : Str) (v : Value) :
    Except RuntimeError ExecutionContext :=
  match lookupAssoc ctx.localIndices name with
  | some i => .ok (ctx.SetLocalIdx i v)
  | none => .error .localNotFound

/-- `GetLocal(string)` (objectir_runtime.cpp:621-629). -/
def GetLocalName (ctx : ExecutionContext) (name : Str) :
    Except RuntimeError Value :=
  match lookupAssoc ctx.localIndices name with
  | some i => ctx.GetLocalIdx i
  | none => .error .localNotFound

/-- `SetThis` (objectir_runtime.hpp:483). -/
def SetThis (ctx : ExecutionContext) (o : Option Nat) : ExecutionContext :=
  { ctx with thisRef := o }

/-- `SetArguments` (objectir_runtime.cpp:631-636): resize to the incoming
count and copy, i.e. replace the arguments vector. -/
def SetArguments (ctx : ExecutionContext) (args : List Value) :
    ExecutionContext :=
  { ctx with arguments := args }

/-- `GetArgument(size_t)` (objectir_runtime.cpp:638-643). -/
def GetArgumentIdx (ctx : ExecutionContext) (i : Nat) :
    Except RuntimeError Value :=
  match ctx.arguments.get? i with
  | some v => .ok v
  | none => .error .outOfRange

/-- `GetArgument(string)` (objectir_runtime.cpp:645-656): the reserved name
`this` yields `Value(_this)` — the object variant wrapping the current `this`
pointer, whatever it is. -/
def GetArgumentName (ctx : ExecutionContext) (name : Str) :
    Except RuntimeError Value :=
  if name = "this".toList then .ok (Value.obj ctx.thisRef)
  else
    match lookupAssoc ctx.parameterIndices name with
    | some i => ctx.GetArgumentIdx i
    | none => .error .argumentNotFound

/-- `SetArgument(string, Value)` (objectir_runtime.cpp:658-668): grows the
arguments vector if the mapped index is past the end. -/
def SetArgumentName (ctx : ExecutionContext) (name : Str) (v : Value) :
    Except RuntimeError ExecutionContext :=
  match lookupAssoc ctx.parameterIndices name with
  | some i =>
    let as_ :=
      if ctx.arguments.length ≤ i then
        ctx.arguments ++ List.replicate (i + 1 - ctx.arguments.length) Value.null
      else ctx.arguments
    .ok { ctx with arguments := as_.set i v }
  | none => .error .argumentNotFound

end ExecutionContext

/-! ## Virtual machine state (`objectir_runtime.hpp:513-575`)

The VM owns the class registry and the output writer.  Output is modelled as
the list of chunks passed to `WriteOutput` in order.  The plugin list and the
context stack are not modelled: no claim observes them. -/
structure VMState where
  classes : List (Str × ClassChain) := []
  output : List Str := []

/-- `VirtualMachine::WriteOutput` (objectir_runtime.hpp:521-527). -/
def VMState.WriteOutput (vm : VMState) (text : Str) : VMState :=
  { vm with output := vm.output ++ [text] }

/-- `VirtualMachine::RegisterClass` (objectir_runtime.cpp:833-858): register
under the simple name, the raw stored name and the canonical qualified name. -/
def VMState.RegisterClass (vm : VMState) (cls : ClassChain) : VMState :=
  match cls with
  | [] => vm
  | layer :: _ =>
    let rawName := layer.name
    let simpleName := lastSegment rawName
    let qualified := GetQualifiedClassName ⟨layer.name, layer.ns⟩
    let m := vm.classes
    let m := if simpleName ≠ [] then mapInsert m simpleName cls else m
    let m := if rawName ≠ [] then mapInsert m rawName cls else m
    let m := if qualified ≠ [] then mapInsert m qualified cls else m
    { vm with classes := m }

/-- `VirtualMachine::GetClass` (objectir_runtime.cpp:859-877): exact lookup,
then (for a dotted name) retry with the trailing simple name, else
`ClassNotFound`. -/
def VMState.GetClass (vm : VMState) (name : Str) :
    Except RuntimeError ClassChain :=
  match lookupAssoc vm.classes name with
  | some c => .ok c
  | none =>
    if '.' ∈ name then
      match lookupAssoc vm.classes (lastSegment name) with
      | some c => .ok c
      | none => .error .classNotFound
    else .error .classNotFound

/-! ## Overload resolution (`objectir_runtime.cpp:967-1070`) -/

/-- `TypeNameMatchesParameter` (objectir_runtime.cpp:967-981): the normalized
requested name must equal the parameter's canonical name, or — when the
request is unqualified — its trailing simple name. -/
def TypeNameMatchesParameter (requestedType : Str) (parameterType : TypeRef) :
    Bool :=
  let requestedNorm := NormalizeTypeName requestedType
  let paramCanon := CanonicalTypeName parameterType
  if requestedNorm = paramCanon then true
  else if '.' ∉ requestedNorm then requestedNorm = lastSegment paramCanon
  else false

/-- `ResolveOverloadOrThrow` (objectir_runtime.cpp:983-1070); `requireStatic`
restricts the candidates to static methods. -/
def ResolveOverloadOrThrow (cls : ClassChain) (target : CallTarget)
    (requireStatic : Bool) : Except RuntimeError MethodData :=
  let methods := CollectMethodsByName cls target.name
  if methods.isEmpty then .error .methodNotFound
  else if target.parameterTypes.isEmpty then
    match methods.filter (fun m => !requireStatic || m.isStatic) with
    | [m] => .ok m
    | _ => .error .ambiguousOverload
  else
    let requestedParams := NormalizeTypeNames target.parameterTypes
    let exact := methods.filter (fun m =>
      (!requireStatic || m.isStatic) &&
      m.parameters.length = requestedParams.length &&
      (requestedParams.zip m.parameters).all
        (fun p => TypeNameMatchesParameter p.1 p.2.2))
    match exact with
    | [m] => .ok m
    | _ :: _ :: _ => .error .ambiguousOverload
    | [] =>
      let arity := methods.filter (fun m =>
        (!requireStatic || m.isStatic) &&
        m.parameters.length = requestedParams.length)
      match arity with
      | [m] => .ok m
      | _ => .error .noMatchingOverload

/-! ## Per-opcode helpers (`instruction_executor.cpp:35-83, 977-1169`) -/

/-- Leading decimal digits of a string, `none` when there are none. -/
def parseDigits (s : Str) : Option Nat :=
  let ds := s.takeWhile Char.isDigit
  if ds = [] then none
  else some (ds.foldl (fun acc c => acc * 10 + (c.toNat - 48)) 0)

/-- `std::stoi`/`std::stoll`: skip whitespace, optional sign, leading decimal
digits; `none` models `std::invalid_argument`. -/
def parseIntStr (s : Str) : Option Int :=
  let s1 := s.dropWhile IsSpaceChar
  match s1 with
  | '-' :: rest => (parseDigits rest).map (fun n => -(n : Int))
  | '+' :: rest => (parseDigits rest).map (fun n => (n : Int))
  | _ => (parseDigits s1).map (fun n => (n : Int))

/-- `CreateConstantValue` (instruction_executor.cpp:35-83).  The branches for
float constant text (`std::stof`/`std::stod`) are outside the model; no claim
loads a float constant. -/
def CreateConstantValue (core : InstrCore) : Except RuntimeError Value :=
  if core.constantIsNull then .ok .null
  else
    let typeLower := ToLowerAscii core.constantType
    if core.constantType ≠ [] ∧ isStringAlias typeLower then
      .ok (.str core.constantRawValue)
    else if core.constantType ≠ [] ∧ isBoolAlias typeLower then
      let b := core.constantBool
      if core.constantRawValue = [] then .ok (.bool b)
      else
        let valueLower := ToLowerAscii core.constantRawValue
        if valueLower = "true".toList ∨ valueLower = "1".toList then .ok (.bool true)
        else if valueLower = "false".toList ∨ valueLower = "0".toList then
          .ok (.bool false)
        else .ok (.bool b)
    else if core.constantType ≠ [] ∧ isInt32Alias typeLower then
      match parseIntStr core.constantRawValue with
      | some n =>
        if -(2 ^ 31) ≤ n ∧ n < 2 ^ 31 then .ok (.int32 n)
        else .error .invalidConstant
      | none => .error .invalidConstant
    else if core.constantType ≠ [] ∧ isInt64Alias typeLower then
      match parseIntStr core.constantRawValue with
      | some n =>
        if -(2 ^ 63) ≤ n ∧ n < 2 ^ 63 then .ok (.int64 n)
        else .error .invalidConstant
      | none => .error .invalidConstant
    else if core.constantType ≠ [] ∧ isFloat32Alias typeLower then
      .error .floatTextUnmodeled
    else if core.constantType ≠ [] ∧ isFloat64Alias typeLower then
      .error .floatTextUnmodeled
    else if core.constantBool then .ok (.bool core.constantBool)
    else .ok (.str core.constantRawValue)

/-! ## Arithmetic and comparison executors
(`instruction_executor.cpp:977-1169`).  Each pops its operands off the frame's
stack (`b` = right, then `a` = left) and pushes the result. -/

/-- `b.IsInt32() && b.AsInt32() == 0` (instruction_executor.cpp:1024). -/
def isZeroInt32 : Value → Bool | .int32 i => i == 0 | _ => false

/-- `b.IsInt64() && b.AsInt64() == 0` (instruction_executor.cpp:1027). -/
def isZeroInt64 : Value → Bool | .int64 i => i == 0 | _ => false

/-- `InstructionExecutor::ExecuteAdd` (instruction_executor.cpp:977-992):
when either operand is a string the source calls `AsString()` on *both*
operands — the typed accessor, which throws on a non-string. -/
def ExecuteAdd (ctx : ExecutionContext) :
    Except RuntimeError ExecutionContext := do
  let (b, ctx) ← ctx.PopStack
  let (a, ctx) ← ctx.PopStack
  if a.IsString || b.IsString then do
    let sa ← a.AsString
    let sb ← b.AsString
    pure (ctx.PushStack (.str (sa ++ sb)))
  else if a.IsInt32 && b.IsInt32 then do
    let ia ← a.AsInt32
    let ib ← b.AsInt32
    pure (ctx.PushStack (.int32 (wrap32 (ia + ib))))
  else if a.IsInt64 || b.IsInt64 then do
    let ia ← ValueToInt64 a
    let ib ← ValueToInt64 b
    pure (ctx.PushStack (.int64 (wrap64 (ia + ib))))
  else do
    let da ← ValueToDouble a
    let db ← ValueToDouble b
    pure (ctx.PushStack (.float64 (da + db)))

/-- `ExecuteSub` (instruction_executor.cpp:994-1005). -/
def ExecuteSub (ctx : ExecutionContext) :
    Except RuntimeError ExecutionContext := do
  let (b, ctx) ← ctx.PopStack
  let (a, ctx) ← ctx.PopStack
  if a.IsInt32 && b.IsInt32 then do
    let ia ← a.AsInt32
    let ib ← b.AsInt32
    pure (ctx.PushStack (.int32 (wrap32 (ia - ib))))
  else if a.IsInt64 || b.IsInt64 then do
    let ia ← ValueToInt64 a
    let ib ← ValueToInt64 b
    pure (ctx.PushStack (.int64 (wrap64 (ia - ib))))
  else do
    let da ← ValueToDouble a
    let db ← ValueToDouble b
    pure (ctx.PushStack (.float64 (da - db)))

/-- `ExecuteMul` (instruction_executor.cpp:1007-1018). -/
def ExecuteMul (ctx : ExecutionContext) :
    Except RuntimeError ExecutionContext := do
  let (b, ctx) ← ctx.PopStack
  let (a, ctx) ← ctx.PopStack
  if a.IsInt32 && b.IsInt32 then do
    let ia ← a.AsInt32
    let ib ← b.AsInt32
    pure (ctx.PushStack (.int32 (wrap32 (ia * ib))))
  else if a.IsInt64 || b.IsInt64 then do
    let ia ← ValueToInt64 a
    let ib ← ValueToInt64 b
    pure (ctx.PushStack (.int64 (wrap64 (ia * ib))))
  else do
    let da ← ValueToDouble a
    let db ← ValueToDouble b
    pure (ctx.PushStack (.float64 (da * db)))

/-- `ExecuteDiv` (instruction_executor.cpp:1020-1038): an integer-zero divisor
faults with `DivideByZero` before any result is produced; the float branch
divides without a trap.  Integer division truncates toward zero (`Int.tdiv`). -/
def ExecuteDiv (ctx : ExecutionContext) :
    Except RuntimeError ExecutionContext := do
  let (b, ctx) ← ctx.PopStack
  let (a, ctx) ← ctx.PopStack
  if isZeroInt32 b then .error .divisionByZero
  else if isZeroInt64 b then .error .divisionByZero
  else if a.IsInt32 && b.IsInt32 then do
    let ia ← a.AsInt32
    let ib ← b.AsInt32
    pure (ctx.PushStack (.int32 (wrap32 (Int.tdiv ia ib))))
  else if a.IsInt64 || b.IsInt64 then do
    let ia ← ValueToInt64 a
    let ib ← ValueToInt64 b
    pure (ctx.PushStack (.int64 (wrap64 (Int.tdiv ia ib))))
  else do
    let da ← ValueToDouble a
    let db ← ValueToDouble b
    pure (ctx.PushStack (.float64 (da / db)))

/-- `ExecuteRem` (instruction_executor.cpp:1040-1051); C++ `%` truncates like
the dividend (`Int.tmod`); non-integer operands fault. -/
def ExecuteRem (ctx : ExecutionContext) :
    Except RuntimeError ExecutionContext := do
  let (b, ctx) ← ctx.PopStack
  let (a, ctx) ← ctx.PopStack
  if a.IsInt32 && b.IsInt32 then do
    let ia ← a.AsInt32
    let ib ← b.AsInt32
    pure (ctx.PushStack (.int32 (wrap32 (Int.tmod ia ib))))
  else if a.IsInt64 || b.IsInt64 then do
    let ia ← ValueToInt64 a
    let ib ← ValueToInt64 b
    pure (ctx.PushStack (.int64 (wrap64 (Int.tmod ia ib))))
  else .error .unsupportedOperation

/-- `ExecuteNeg` (instruction_executor.cpp:1053-1065): the four numeric
variants negate and push; *any other* variant falls off the if-chain — the
popped value is simply discarded, no error is raised and nothing is pushed. -/
def ExecuteNeg (ctx : ExecutionContext) :
    Except RuntimeError ExecutionContext := do
  let (a, ctx) ← ctx.PopStack
  match a with
  | .int32 i => pure (ctx.PushStack (.int32 (wrap32 (-i))))
  | .int64 i => pure (ctx.PushStack (.int64 (wrap64 (-i))))
  | .float32 f => pure (ctx.PushStack (.float32 (-f)))
  | .float64 f => pure (ctx.PushStack (.float64 (-f)))
  | _ => pure ctx

/-- `ExecuteCeq` (instruction_executor.cpp:1067-1085). -/
def ExecuteCeq (ctx : ExecutionContext) :
    Except RuntimeError ExecutionContext := do
  let (b, ctx) ← ctx.PopStack
  let (a, ctx) ← ctx.PopStack
  let result ←
    if a.IsInt32 && b.IsInt32 then do
      let ia ← a.AsInt32
      let ib ← b.AsInt32
      pure (ia == ib)
    else if (a.IsInt32 || a.IsInt64) && (b.IsInt32 || b.IsInt64) then do
      let ia ← ValueToInt64 a
      let ib ← ValueToInt64 b
      pure (ia == ib)
    else if a.IsString && b.IsString then do
      let sa ← a.AsString
      let sb ← b.AsString
      pure (sa == sb)
    else if a.IsBool && b.IsBool then do
      let ba ← a.AsBool
      let bb ← b.AsBool
      pure (ba == bb)
    else do
      let da ← ValueToDouble a
      let db ← ValueToDouble b
      pure (da == db)
  pure (ctx.PushStack (.bool result))

/-- `ExecuteCne` (instruction_executor.cpp:1087-1105). -/
def ExecuteCne (ctx : ExecutionContext) :
    Except RuntimeError ExecutionContext := do
  let (b, ctx) ← ctx.PopStack
  let (a, ctx) ← ctx.PopStack
  let result ←
    if a.IsInt32 && b.IsInt32 then do
      let ia ← a.AsInt32
      let ib ← b.AsInt32
      pure (ia != ib)
    else if (a.IsInt32 || a.IsInt64) && (b.IsInt32 || b.IsInt64) then do
      let ia ← ValueToInt64 a
      let ib ← ValueToInt64 b
      pure (ia != ib)
    else if a.IsString && b.IsString then do
      let sa ← a.AsString
      let sb ← b.AsString
      pure (sa != sb)
    else if a.IsBool && b.IsBool then do
      let ba ← a.AsBool
      let bb ← b.AsBool
      pure (ba != bb)
    else do
      let da ← ValueToDouble a
      let db ← ValueToDouble b
      pure (da != db)
  pure (ctx.PushStack (.bool result))

/-- `ExecuteClt` (instruction_executor.cpp:1107-1121). -/
def ExecuteClt (ctx : ExecutionContext) :
    Except RuntimeError ExecutionContext := do
  let (b, ctx) ← ctx.PopStack
  let (a, ctx) ← ctx.PopStack
  let result ←
    if a.IsInt32 && b.IsInt32 then do
      let ia ← a.AsInt32
      let ib ← b.AsInt32
      pure (decide (ia < ib))
    else if (a.IsInt32 || a.IsInt64) && (b.IsInt32 || b.IsInt64) then do
      let ia ← ValueToInt64 a
      let ib ← ValueToInt64 b
      pure (decide (ia < ib))
    else do
      let da ← ValueToDouble a
      let db ← ValueToDouble b
      pure (decide (da < db))
  pure (ctx.PushStack (.bool result))

/-- `ExecuteCle` (instruction_executor.cpp:1123-1137). -/
def ExecuteCle (ctx : ExecutionContext) :
    Except RuntimeError ExecutionContext := do
  let (b, ctx) ← ctx.PopStack
  let (a, ctx) ← ctx.PopStack
  let result ←
    if a.IsInt32 && b.IsInt32 then do
      let ia ← a.AsInt32
      let ib ← b.AsInt32
      pure (decide (ia ≤ ib))
    else if (a.IsInt32 || a.IsInt64) && (b.IsInt32 || b.IsInt64) then do
      let ia ← ValueToInt64 a
      let ib ← ValueToInt64 b
      pure (decide (ia ≤ ib))
    else do
      let da ← ValueToDouble a
      let db ← ValueToDouble b
      pure (decide (da ≤ db))
  pure (ctx.PushStack (.bool result))

/-- `ExecuteCgt` (instruction_executor.cpp:1139-1153). -/
def ExecuteCgt (ctx : ExecutionContext) :
    Except RuntimeError ExecutionContext := do
  let (b, ctx) ← ctx.PopStack
  let (a, ctx) ← ctx.PopStack
  let result ←
    if a.IsInt32 && b.IsInt32 then do
      let ia ← a.AsInt32
      let ib ← b.AsInt32
      pure (decide (ib < ia))
    else if (a.IsInt32 || a.IsInt64) && (b.IsInt32 || b.IsInt64) then do
      let ia ← ValueToInt64 a
      let ib ← ValueToInt64 b
      pure (decide (ib < ia))
    else do
      let da ← ValueToDouble a
      let db ← ValueToDouble b
      pure (decide (db < da))
  pure (ctx.PushStack (.bool result))

/-- `ExecuteCge` (instruction_executor.cpp:1155-1169). -/
def ExecuteCge (ctx : ExecutionContext) :
    Except RuntimeError ExecutionContext := do
  let (b, ctx) ← ctx.PopStack
  let (a, ctx) ← ctx.PopStack
  let result ←
    if a.IsInt32 && b.IsInt32 then do
      let ia ← a.AsInt32
      let ib ← b.AsInt32
      pure (decide (ib ≤ ia))
    else if (a.IsInt32 || a.IsInt64) && (b.IsInt32 || b.IsInt64) then do
      let ia ← ValueToInt64 a
      let ib ← ValueToInt64 b
      pure (decide (ib ≤ ia))
    else do
      let da ← ValueToDouble a
      let db ← ValueToDouble b
      pure (decide (db ≤ da))
  pure (ctx.PushStack (.bool result))

/-- The comparison-opcode switch of the binary-condition evaluators
(instruction_executor.cpp:917-926 and 1197-1206). -/
def applyComparisonOp (op : OpCode) (ctx : ExecutionContext) :
    Except RuntimeError ExecutionContext :=
  match op with
  | .ceq => ExecuteCeq ctx
  | .cne => ExecuteCne ctx
  | .clt => ExecuteClt ctx
  | .cle => ExecuteCle ctx
  | .cgt => ExecuteCgt ctx
  | .cge => ExecuteCge ctx
  | _ => .error .unsupportedComparison

/-- The `compareBranch` lambda of `ExecuteInstructions`
(instruction_executor.cpp:790-817). -/
def compareBranch (cmp : OpCode) (left right : Value) :
    Except RuntimeError Bool :=
  match cmp with
  | .beq =>
    if left.IsString && right.IsString then do
      let a ← left.AsString; let b ← right.AsString; pure (a == b)
    else if left.IsBool && right.IsBool then do
      let a ← left.AsBool; let b ← right.AsBool; pure (a == b)
    else if (left.IsInt32 || left.IsInt64) && (right.IsInt32 || right.IsInt64) then do
      let a ← ValueToInt64 left; let b ← ValueToInt64 right; pure (a == b)
    else do
      let a ← ValueToDouble left; let b ← ValueToDouble right; pure (a == b)
  | .bne =>
    if left.IsString && right.IsString then do
      let a ← left.AsString; let b ← right.AsString; pure (a != b)
    else if left.IsBool && right.IsBool then do
      let a ← left.AsBool; let b ← right.AsBool; pure (a != b)
    else if (left.IsInt32 || left.IsInt64) && (right.IsInt32 || right.IsInt64) then do
      let a ← ValueToInt64 left; let b ← ValueToInt64 right; pure (a != b)
    else do
      let a ← ValueToDouble left; let b ← ValueToDouble right; pure (a != b)
  | .bgt =>
    if (left.IsInt32 || left.IsInt64) && (right.IsInt32 || right.IsInt64) then do
      let a ← ValueToInt64 left; let b ← ValueToInt64 right; pure (decide (b < a))
    else do
      let a ← ValueToDouble left; let b ← ValueToDouble right; pure (decide (b < a))
  | .blt =>
    if (left.IsInt32 || left.IsInt64) && (right.IsInt32 || right.IsInt64) then do
      let a ← ValueToInt64 left; let b ← ValueToInt64 right; pure (decide (a < b))
    else do
      let a ← ValueToDouble left; let b ← ValueToDouble right; pure (decide (a < b))
  | .bge =>
    if (left.IsInt32 || left.IsInt64) && (right.IsInt32 || right.IsInt64) then do
      let a ← ValueToInt64 left; let b ← ValueToInt64 right; pure (decide (b ≤ a))
    else do
      let a ← ValueToDouble left; let b ← ValueToDouble right; pure (decide (b ≤ a))
  | .ble =>
    if (left.IsInt32 || left.IsInt64) && (right.IsInt32 || right.IsInt64) then do
      let a ← ValueToInt64 left; let b ← ValueToInt64 right; pure (decide (a ≤ b))
    else do
      let a ← ValueToDouble left; let b ← ValueToDouble right; pure (decide (a ≤ b))
  | _ => pure false

/-- The `resolveTarget` lambda of `ExecuteInstructions`
(instruction_executor.cpp:766-788): integer operand, else label lookup (which
returns its index *without* a range check), else decimal parse; range-check
everything else. -/
def resolveTarget (instructions : List Instruction)
    (labelMap : List (Str × Nat)) (instr : Instruction) :
    Except RuntimeError Nat := do
  if instr.core.hasOperandInt then
    let target := instr.core.operandInt
    if target < 0 ∨ (instructions.length : Int) ≤ target then
      .error .branchTargetOutOfRange
    else pure target.toNat
  else if instr.core.operandString ≠ [] then
    match lookupAssoc labelMap instr.core.operandString with
    | some idx => pure idx
    | none =>
      match parseIntStr instr.core.operandString with
      | some t =>
        if t < 0 ∨ (instructions.length : Int) ≤ t then
          .error .branchTargetOutOfRange
        else pure t.toNat
      | none => .error .branchTargetNotFound
  else .error .branchTargetOutOfRange

/-- The load-class test of the binary-while setup collection
(instruction_executor.cpp:886-894). -/
def isLoadClass (i : Instruction) : Bool :=
  match i.opCode with
  | .ldloc | .ldcon | .ldi4 | .ldi8 | .ldr4 | .ldr8 | .ldtrue | .ldfalse
  | .ldnull => true
  | _ => false

/-- The backward walk of instruction_executor.cpp:881-900: from `idx - 1`
downward, prepend contiguous load-class instructions, stop at the first
non-load. -/
def collectSetupAux (instructions : List Instruction) :
    Nat → List Instruction → List Instruction
  | 0, acc => acc
  | idx + 1, acc =>
    match instructions.get? idx with
    | some prev =>
      if isLoadClass prev then collectSetupAux instructions idx (prev :: acc)
      else acc
    | none => acc

/-- The setup run collected for a binary-condition `while` at index `ip`. -/
def collectSetup (instructions : List Instruction) (ip : Nat) :
    List Instruction :=
  collectSetupAux instructions ip []

/-- `target.returnType.empty() || == "void" || == "System.Void"`
(instruction_executor.cpp:650). -/
def isVoidCallReturn (rt : Str) : Bool :=
  rt == [] || rt == "void".toList || rt == "System.Void".toList

/-- `GetReturnType().IsPrimitive() && GetPrimitiveType() == Void`
(objectir_runtime.cpp:1116-1118 and 1143-1145). -/
def isVoidReturnType (t : TypeRef) : Bool :=
  t.isPrimitive && t.primitiveType == .void

/-- Pop `n` values (first popped first in the result), as the argument loop of
the call opcode does (instruction_executor.cpp:643-647). -/
def popN : Nat → ExecutionContext →
    Except RuntimeError (List Value × ExecutionContext)
  | 0, ctx => .ok ([], ctx)
  | n + 1, ctx => do
    let (v, ctx) ← ctx.PopStack
    let (vs, ctx) ← popN n ctx
    .ok (v :: vs, ctx)

/-- The argument-printing loop of the `System.Console.WriteLine` special case
(instruction_executor.cpp:656-669): space-separated display strings, the
empty string for null. -/
def writeArgsAux (vm : VMState) (first : Bool) :
    List Value → Except RuntimeError VMState
  | [] => .ok vm
  | a :: rest => do
    let vm := if first then vm else vm.WriteOutput " ".toList
    let vm ←
      if a.IsNull then pure (vm.WriteOutput [])
      else do
        let s ← ValueToString a
        pure (vm.WriteOutput s)
    writeArgsAux vm false rest

/-- The full `System.Console.WriteLine` special case
(instruction_executor.cpp:652-673): no arguments → a bare newline; otherwise
the arguments then a newline. -/
def writeLineOutput (vm : VMState) (callArgs : List Value) :
    Except RuntimeError VMState :=
  match callArgs with
  | [] => .ok (vm.WriteOutput "\n".toList)
  | _ => do
    let vm ← writeArgsAux vm true callArgs
    .ok (vm.WriteOutput "\n".toList)

/-! ## The instruction executor
(`InstructionExecutor::Execute` instruction_executor.cpp:429-753,
`InstructionExecutor::ExecuteInstructions` 755-959,
`EvaluateCondition` 1171-1224, invokers objectir_runtime.cpp:1103-1150).

C++ exceptions become `Except.error`.  A `std::runtime_error` escaping to the
host leaves the VM object (in particular its output writer) in whatever state
execution reached, so the error channel carries the `VMState` at the moment
of the fault.  The `BreakSignal`/`ContinueSignal` exceptions thrown by the
`break`/`continue` opcodes unwind the enclosing body while keeping the
mutated frame, so the result of executing a block is an `Outcome` carrying
the state along with the signal.  A signal crossing a method-call boundary
degenerates to a bare error (no claim exercises that).

The interpreter's mutually recursive procedures can loop forever; the
embedding runs on `fuel`.  To keep every definition evaluable inside the
kernel, the mutual recursion is expressed as a single structural recursion on
the fuel: `Interp` packages the six procedures, `interpSucc` builds the
procedures at fuel `n + 1` from the procedures at fuel `n` (every
inter-procedure call descends one fuel level), and `interpAt` iterates from
the all-out-of-fuel base.  `Execute`, `ExecuteList`, … below are the views of
the C++ functions at a given fuel. -/
inductive Outcome where
  | normal (ctx : ExecutionContext) (vm : VMState)
  | brkSig (ctx : ExecutionContext) (vm : VMState)
  | contSig (ctx : ExecutionContext) (vm : VMState)

/-- Attach the VM state at the fault to a frame-level or value-level error. -/
def withVM (vm : VMState) :
    Except RuntimeError α → Except (RuntimeError × VMState) α
  | .ok a => .ok a
  | .error e => .error (e, vm)

/-- The six mutually recursive procedures of the executor, at one fuel level. -/
structure Interp where
  execI : Instruction → ExecutionContext → VMState →
    Except (RuntimeError × VMState) Outcome
  whileL : WhileData Instruction → ExecutionContext → VMState →
    Except (RuntimeError × VMState) (ExecutionContext × VMState)
  evalC : ConditionData Instruction → ExecutionContext → VMState →
    Except (RuntimeError × VMState) (Bool × ExecutionContext × VMState)
  binW : List Instruction → WhileData Instruction → ExecutionContext →
    VMState → Except (RuntimeError × VMState) (ExecutionContext × VMState)
  loop : List Instruction → List (Str × Nat) → Nat → ExecutionContext →
    VMState → Except (RuntimeError × VMState)
      (Value × ExecutionContext × VMState)
  invoke : VMState → ClassChain → CallTarget → List Value →
    Except (RuntimeError × VMState) (Value × VMState)

/-- A sequence of instructions executed by repeated single-instruction steps;
a loop signal stops the sequence and propagates with its state, as the
corresponding C++ exception unwinds the `for` loops over block bodies. -/
def execListWith
    (stepI : Instruction → ExecutionContext → VMState →
      Except (RuntimeError × VMState) Outcome) :
    List Instruction → ExecutionContext → VMState →
    Except (RuntimeError × VMState) Outcome
  | [], ctx, vm => .ok (.normal ctx vm)
  | i :: rest, ctx, vm => do
    match ← stepI i ctx vm with
    | .normal ctx vm => execListWith stepI rest ctx vm
    | out => .ok out

/-- Fuel ran out everywhere (an artifact of the embedding, not a behavior of
the source). -/
def interpZero : Interp where
  execI := fun _ _ vm => .error (.fuelExhausted, vm)
  whileL := fun _ _ vm => .error (.fuelExhausted, vm)
  evalC := fun _ _ vm => .error (.fuelExhausted, vm)
  binW := fun _ _ _ vm => .error (.fuelExhausted, vm)
  loop := fun _ _ _ _ vm => .error (.fuelExhausted, vm)
  invoke := fun vm _ _ _ => .error (.fuelExhausted, vm)

/-- The executor's procedures at fuel `n + 1`, given the procedures `prev` at
fuel `n`. -/
def interpSucc (prev : Interp) : Interp where
  /- `InstructionExecutor::Execute` (instruction_executor.cpp:429-753), one
  instruction in the given frame.  `ldfld`/`stfld`/`newobj`/non-WriteLine
  `callvirt` need the object heap, which no claim exercises; they are left
  outside the model. -/
  execI := fun instr ctx vm =>
    match instr.opCode with
    | .nop => .ok (.normal ctx vm)
    | .dup => do
      let v ← withVM vm ctx.PeekStack
      .ok (.normal (ctx.PushStack v) vm)
    | .pop => do
      let (_, ctx) ← withVM vm ctx.PopStack
      .ok (.normal ctx vm)
    | .ldarg => do
      let v ← withVM vm (ctx.GetArgumentName instr.core.identifier)
      .ok (.normal (ctx.PushStack v) vm)
    | .starg => do
      let (v, ctx) ← withVM vm ctx.PopStack
      let ctx ← withVM vm (ctx.SetArgumentName instr.core.identifier v)
      .ok (.normal ctx vm)
    | .ldloc => do
      let v ← withVM vm (ctx.GetLocalName instr.core.identifier)
      .ok (.normal (ctx.PushStack v) vm)
    | .ldfld => .error (.opcodeUnmodeled, vm)
    | .stloc => do
      let (v, ctx) ← withVM vm ctx.PopStack
      let ctx ← withVM vm (ctx.SetLocalName instr.core.identifier v)
      .ok (.normal ctx vm)
    | .stfld => .error (.opcodeUnmodeled, vm)
    | .ldcon => do
      let v ← withVM vm (CreateConstantValue instr.core)
      .ok (.normal (ctx.PushStack v) vm)
    | .ldstr => do
      let v ← withVM vm (CreateConstantValue instr.core)
      .ok (.normal (ctx.PushStack v) vm)
    | .ldi4 => .ok (.normal (ctx.PushStack (.int32 instr.core.operandInt)) vm)
    | .ldi8 => .ok (.normal (ctx.PushStack (.int64 instr.core.operandInt)) vm)
    | .ldr4 =>
      .ok (.normal (ctx.PushStack (.float32 instr.core.operandDouble)) vm)
    | .ldr8 =>
      .ok (.normal (ctx.PushStack (.float64 instr.core.operandDouble)) vm)
    | .ldtrue => .ok (.normal (ctx.PushStack (.bool true)) vm)
    | .ldfalse => .ok (.normal (ctx.PushStack (.bool false)) vm)
    | .ldnull => .ok (.normal (ctx.PushStack .null) vm)
    | .add => do
      let ctx ← withVM vm (ExecuteAdd ctx)
      .ok (.normal ctx vm)
    | .sub => do
      let ctx ← withVM vm (ExecuteSub ctx)
      .ok (.normal ctx vm)
    | .mul => do
      let ctx ← withVM vm (ExecuteMul ctx)
      .ok (.normal ctx vm)
    | .div => do
      let ctx ← withVM vm (ExecuteDiv ctx)
      .ok (.normal ctx vm)
    | .rem => do
      let ctx ← withVM vm (ExecuteRem ctx)
      .ok (.normal ctx vm)
    | .neg => do
      let ctx ← withVM vm (ExecuteNeg ctx)
      .ok (.normal ctx vm)
    | .ceq => do
      let ctx ← withVM vm (ExecuteCeq ctx)
      .ok (.normal ctx vm)
    | .cne => do
      let ctx ← withVM vm (ExecuteCne ctx)
      .ok (.normal ctx vm)
    | .clt => do
      let ctx ← withVM vm (ExecuteClt ctx)
      .ok (.normal ctx vm)
    | .cle => do
      let ctx ← withVM vm (ExecuteCle ctx)
      .ok (.normal ctx vm)
    | .cgt => do
      let ctx ← withVM vm (ExecuteCgt ctx)
      .ok (.normal ctx vm)
    | .cge => do
      let ctx ← withVM vm (ExecuteCge ctx)
      .ok (.normal ctx vm)
    | .ret => .ok (.normal ctx vm)
    | .br | .brtrue | .brfalse | .beq | .bne | .bgt | .blt | .bge | .ble =>
      .error (.branchOutsideDispatcher, vm)
    | .newobj => .error (.opcodeUnmodeled, vm)
    | .call =>
      match instr.core.callTarget with
      | none => .error (.missingMetadata, vm)
      | some target => do
        let (callArgs, ctx) ← withVM vm (popN target.parameterTypes.length ctx)
        let callArgs := callArgs.reverse
        if target.declaringType = "System.Console".toList ∧
            target.name = "WriteLine".toList then do
          let vm ← withVM vm (writeLineOutput vm callArgs)
          .ok (.normal ctx vm)
        else do
          let cls ← withVM vm (vm.GetClass target.declaringType)
          let (result, vm) ← prev.invoke vm cls target callArgs
          if isVoidCallReturn target.returnType then .ok (.normal ctx vm)
          else .ok (.normal (ctx.PushStack result) vm)
    | .callvirt =>
      match instr.core.callTarget with
      | none => .error (.missingMetadata, vm)
      | some target => do
        let (callArgs, ctx) ← withVM vm (popN target.parameterTypes.length ctx)
        let callArgs := callArgs.reverse
        if target.declaringType = "System.Console".toList ∧
            target.name = "WriteLine".toList then do
          let vm ← withVM vm (writeLineOutput vm callArgs)
          .ok (.normal ctx vm)
        else .error (.opcodeUnmodeled, vm)
    | .castclass | .isinst | .newarr | .ldelem | .stelem | .ldlen =>
      .error (.unknownOpcode, vm)
    | .brk => .ok (.brkSig ctx vm)
    | .cont => .ok (.contSig ctx vm)
    | .whileOp =>
      match instr.whileData with
      | none => .error (.missingMetadata, vm)
      | some wd => do
        let (ctx, vm) ← prev.whileL wd ctx vm
        .ok (.normal ctx vm)
    | .ifOp =>
      match instr.ifData with
      | none => .error (.missingMetadata, vm)
      | some idata => do
        let (v, ctx) ← withVM vm ctx.PopStack
        if ValueToBool v then execListWith prev.execI idata.thenBlock ctx vm
        else if !idata.elseBlock.isEmpty then
          execListWith prev.execI idata.elseBlock ctx vm
        else .ok (.normal ctx vm)
    | .throwOp => .error (.unhandledThrow, vm)
  /- The structured `while` of `Execute` (instruction_executor.cpp:701-720):
  evaluate the condition, run the body, absorb `continue`/`break`. -/
  whileL := fun wd ctx vm => do
    let (cond, ctx, vm) ← prev.evalC wd.condition ctx vm
    if cond then
      match ← execListWith prev.execI wd.body ctx vm with
      | .normal ctx vm => prev.whileL wd ctx vm
      | .contSig ctx vm => prev.whileL wd ctx vm
      | .brkSig ctx vm => .ok (ctx, vm)
    else .ok (ctx, vm)
  /- `InstructionExecutor::EvaluateCondition`
  (instruction_executor.cpp:1171-1224). -/
  evalC := fun cond ctx vm => do
    match ← execListWith prev.execI cond.setupInstructions ctx vm with
    | .brkSig _ vm => .error (.brkSignal, vm)
    | .contSig _ vm => .error (.contSignal, vm)
    | .normal ctx vm =>
      match cond.kind with
      | .stack => do
        let (v, ctx) ← withVM vm ctx.PopStack
        .ok (ValueToBool v, ctx, vm)
      | .binary =>
        if cond.comparisonOp = .nop then .error (.missingComparison, vm)
        else do
          let (right, ctx) ← withVM vm ctx.PopStack
          let (left, ctx) ← withVM vm ctx.PopStack
          let ctx := (ctx.PushStack left).PushStack right
          let ctx ← withVM vm (applyComparisonOp cond.comparisonOp ctx)
          let (result, ctx) ← withVM vm ctx.PopStack
          .ok (ValueToBool result, ctx, vm)
      | .expression => do
        match ← execListWith prev.execI cond.expressionInstructions ctx vm with
        | .brkSig _ vm => .error (.brkSignal, vm)
        | .contSig _ vm => .error (.contSignal, vm)
        | .normal ctx vm => do
          let (result, ctx) ← withVM vm ctx.PopStack
          .ok (ValueToBool result, ctx, vm)
      | .noneKind => .error (.badConditionKind, vm)
  /- The binary-condition `while` loop of the flat dispatcher
  (instruction_executor.cpp:902-944): each iteration re-executes the
  collected setup loads, pops right and left, re-pushes them, runs the
  condition's comparison opcode, pops the boolean, and either exits or runs
  the body. -/
  binW := fun setup wd ctx vm => do
    match ← execListWith prev.execI setup ctx vm with
    | .brkSig _ vm => .error (.brkSignal, vm)
    | .contSig _ vm => .error (.contSignal, vm)
    | .normal ctx vm =>
      if wd.condition.comparisonOp = .nop then .error (.missingComparison, vm)
      else do
        let (right, ctx) ← withVM vm ctx.PopStack
        let (left, ctx) ← withVM vm ctx.PopStack
        let ctx := (ctx.PushStack left).PushStack right
        let ctx ← withVM vm (applyComparisonOp wd.condition.comparisonOp ctx)
        let (result, ctx) ← withVM vm ctx.PopStack
        if ValueToBool result then
          match ← execListWith prev.execI wd.body ctx vm with
          | .normal ctx vm => prev.binW setup wd ctx vm
          | .contSig ctx vm => prev.binW setup wd ctx vm
          | .brkSig ctx vm => .ok (ctx, vm)
        else .ok (ctx, vm)
  /- The dispatch loop of `InstructionExecutor::ExecuteInstructions`
  (instruction_executor.cpp:819-958): `ret` and running past the end both
  return pop-or-null; branches resolve and jump; a `while` with a binary
  condition collects its setup run and loops; everything else goes through
  `Execute` and advances `ip` by one. -/
  loop := fun instructions labelMap ip ctx vm =>
    match instructions.get? ip with
    | none =>
      match ctx.PopStack with
      | .ok (v, ctx) => .ok (v, ctx, vm)
      | .error _ => .ok (.null, ctx, vm)
    | some instr =>
      if instr.opCode = .ret then
        match ctx.PopStack with
        | .ok (v, ctx) => .ok (v, ctx, vm)
        | .error _ => .ok (.null, ctx, vm)
      else
        match instr.opCode with
        | .br => do
          let t ← withVM vm (resolveTarget instructions labelMap instr)
          prev.loop instructions labelMap t ctx vm
        | .brtrue => do
          let (v, ctx) ← withVM vm ctx.PopStack
          if ValueToBool v then do
            let t ← withVM vm (resolveTarget instructions labelMap instr)
            prev.loop instructions labelMap t ctx vm
          else prev.loop instructions labelMap (ip + 1) ctx vm
        | .brfalse => do
          let (v, ctx) ← withVM vm ctx.PopStack
          if !(ValueToBool v) then do
            let t ← withVM vm (resolveTarget instructions labelMap instr)
            prev.loop instructions labelMap t ctx vm
          else prev.loop instructions labelMap (ip + 1) ctx vm
        | .beq | .bne | .bgt | .blt | .bge | .ble => do
          let (right, ctx) ← withVM vm ctx.PopStack
          let (left, ctx) ← withVM vm ctx.PopStack
          let cond ← withVM vm (compareBranch instr.opCode left right)
          if cond then do
            let t ← withVM vm (resolveTarget instructions labelMap instr)
            prev.loop instructions labelMap t ctx vm
          else prev.loop instructions labelMap (ip + 1) ctx vm
        | _ =>
          let special :=
            if instr.opCode = .whileOp then
              match instr.whileData with
              | some wd =>
                if wd.condition.kind = .binary then some wd else none
              | none => none
            else none
          match special with
          | some wd => do
            let setup := collectSetup instructions ip
            let (ctx, vm) ← prev.binW setup wd ctx vm
            prev.loop instructions labelMap (ip + 1) ctx vm
          | none => do
            match ← prev.execI instr ctx vm with
            | .normal ctx vm =>
              prev.loop instructions labelMap (ip + 1) ctx vm
            | .brkSig _ vm => .error (.brkSignal, vm)
            | .contSig _ vm => .error (.contSignal, vm)
  /- `VirtualMachine::InvokeStaticMethod(ClassRef, CallTarget, args)`
  (objectir_runtime.cpp:1103-1125): resolve the overload, reject native
  bodies (outside the model), build a frame, run the dispatch loop, and
  return null instead of the result when the declared return type is void. -/
  invoke := fun vm cls target args => do
    let method ← withVM vm (ResolveOverloadOrThrow cls target true)
    match method.nativeImpl with
    | some _ => .error (.nativeUnmodeled, vm)
    | none =>
      if method.HasInstructions then do
        let ctx := (ExecutionContext.create method).SetArguments args
        let ctx := (ctx.SetThis none).SetArguments args
        let (result, _, vm) ←
          prev.loop method.instructions method.labelMap 0 ctx vm
        if isVoidReturnType method.returnType then .ok (.null, vm)
        else .ok (result, vm)
      else .error (.noImplementation, vm)

/-- The executor at a given fuel. -/
def interpAt : Nat → Interp
  | 0 => interpZero
  | fuel + 1 => interpSucc (interpAt fuel)

/-- `InstructionExecutor::Execute` at the given fuel. -/
def Execute (fuel : Nat) (instr : Instruction) (ctx : ExecutionContext)
    (vm : VMState) : Except (RuntimeError × VMState) Outcome :=
  (interpAt fuel).execI instr ctx vm

/-- A block body executed instruction by instruction at the given fuel. -/
def ExecuteList (fuel : Nat) (instrs : List Instruction)
    (ctx : ExecutionContext) (vm : VMState) :
    Except (RuntimeError × VMState) Outcome :=
  execListWith (interpAt fuel).execI instrs ctx vm

/-- The structured-`while` loop at the given fuel. -/
def whileLoop (fuel : Nat) (wd : WhileData Instruction)
    (ctx : ExecutionContext) (vm : VMState) :
    Except (RuntimeError × VMState) (ExecutionContext × VMState) :=
  (interpAt fuel).whileL wd ctx vm

/-- `InstructionExecutor::EvaluateCondition` at the given fuel. -/
def EvaluateCondition (fuel : Nat) (cond : ConditionData Instruction)
    (ctx : ExecutionContext) (vm : VMState) :
    Except (RuntimeError × VMState) (Bool × ExecutionContext × VMState) :=
  (interpAt fuel).evalC cond ctx vm

/-- The binary-condition `while` loop of the dispatcher at the given fuel. -/
def binaryWhileLoop (fuel : Nat) (setup : List Instruction)
    (wd : WhileData Instruction) (ctx : ExecutionContext) (vm : VMState) :
    Except (RuntimeError × VMState) (ExecutionContext × VMState) :=
  (interpAt fuel).binW setup wd ctx vm

/-- The dispatch loop of `InstructionExecutor::ExecuteInstructions` at the
given fuel. -/
def ExecLoop (fuel : Nat) (instructions : List Instruction)
    (labelMap : List (Str × Nat)) (ip : Nat) (ctx : ExecutionContext)
    (vm : VMState) :
    Except (RuntimeError × VMState) (Value × ExecutionContext × VMState) :=
  (interpAt fuel).loop instructions labelMap ip ctx vm

/-- `VirtualMachine::InvokeStaticMethod(ClassRef, CallTarget, args)` at the
given fuel. -/
def InvokeStaticTarget (fuel : Nat) (vm : VMState) (cls : ClassChain)
    (target : CallTarget) (args : List Value) :
    Except (RuntimeError × VMState) (Value × VMState) :=
  (interpAt fuel).invoke vm cls target args

/-- `InstructionExecutor::ExecuteInstructions`
(instruction_executor.cpp:755-959): install `this` and the arguments in the
frame, then run the dispatch loop from `ip = 0`. -/
def ExecuteInstructions (fuel : Nat) (instructions : List Instruction)
    (thisPtr : Option Nat) (args : List Value) (ctx : ExecutionContext)
    (vm : VMState) (labelMap : List (Str × Nat)) :
    Except (RuntimeError × VMState) (Value × ExecutionContext × VMState) :=
  let ctx := (ctx.SetThis thisPtr).SetArguments args
  ExecLoop fuel instructions labelMap 0 ctx vm

/-- `Class::LookupMethod` (objectir_runtime.cpp:507-516): first method of the
given name in this class, else recurse into the base chain. -/
def LookupMethod : ClassChain → Str → Option MethodData
  | [], _ => none
  | layer :: base, name =>
    match layer.methods.find? (fun m => m.name = name) with
    | some m => some m
    | none => LookupMethod base name

/-- `VirtualMachine::InvokeStaticMethod(ClassRef, string, args)`
(objectir_runtime.cpp:1127-1150): name-only resolution via `LookupMethod`,
then the same native/instructions/void discipline. -/
def InvokeStaticByName (fuel : Nat) (vm : VMState) (cls : ClassChain)
    (methodName : Str) (args : List Value) :
    Except (RuntimeError × VMState) (Value × VMState) := do
  match LookupMethod cls methodName with
  | none => .error (.methodNotFound, vm)
  | some method =>
    match method.nativeImpl with
    | some _ => .error (.nativeUnmodeled, vm)
    | none =>
      if method.HasInstructions then do
        let ctx := (ExecutionContext.create method).SetArguments args
        let (result, _, vm) ←
          ExecuteInstructions fuel method.instructions none args ctx vm
            method.labelMap
        if isVoidReturnType method.returnType then .ok (.null, vm)
        else .ok (result, vm)
      else .error (.noImplementation, vm)

/-! ## Concrete-program helpers and shared lemmas -/

/-- An instruction with only an opcode (all operand slots default). -/
def simpleInstr (op : OpCode) : Instruction := .mk { opCode := op } none none

/-- `ldi4 n` as the decoder produces it (bare integer operand,
instruction_executor.cpp:413-421). -/
def ldi4Instr (n : Int) : Instruction :=
  .mk { opCode := .ldi4, operandInt := n, hasOperandInt := true } none none

/-- `ldloc name` (decoder instruction_executor.cpp:259-264). -/
def ldlocInstr (name : Str) : Instruction :=
  .mk { opCode := .ldloc, identifier := name } none none

/-- `stloc name`. -/
def stlocInstr (name : Str) : Instruction :=
  .mk { opCode := .stloc, identifier := name } none none

/-- A `while` instruction carrying a binary condition with the given
comparison opcode and the given body. -/
def whileBinaryInstr (cmp : OpCode) (body : List Instruction) : Instruction :=
  .mk { opCode := .whileOp }
    (some { condition := { kind := .binary, comparisonOp := cmp }, body := body })
    none

/-- The `int32` type reference. -/
def int32TR : TypeRef := { primitiveType := .int32 }

/-- The `string` type reference. -/
def stringTR : TypeRef := { primitiveType := .string }

/-- The `void` type reference. -/
def voidTR : TypeRef := { primitiveType := .void }

/-- A method body used by frames appearing in stack-effect lemmas; its
contents are irrelevant to the stack operations. -/
def dummyMethod : MethodData := { name := [], returnType := voidTR, isStatic := true }

theorem PopStack_eq (ctx : ExecutionContext) (v : Value) (rest : List Value)
    (hs : ctx.stack = v :: rest) :
    ctx.PopStack = .ok (v, { ctx with stack := rest }) := by
  unfold ExecutionContext.PopStack
  rw [hs]

/-- The pop-or-null rule the spec states for `ret` and for running past the
end of the instruction list. -/
def popOrNull (ctx : ExecutionContext) : Value × ExecutionContext :=
  match ctx.stack with
  | [] => (Value.null, ctx)
  | v :: rest => (v, { ctx with stack := rest })

/-! ## C10 — `neg` on a non-numeric operand -/

/-- C10: executing `neg` on a frame whose operand-stack top is a non-numeric
value (null, bool, string, or object reference) pops that value, pushes
nothing and raises no error; the operand stack silently shrinks by one
instead of failing with `TypeMismatch` or preserving the one-pop-one-push
stack effect. -/
theorem C10_neg_nonnumeric_silently_pops (ctx : ExecutionContext) (v : Value)
    (rest : List Value)
    (hnum : v.IsInt32 = false ∧ v.IsInt64 = false ∧ v.IsFloat32 = false ∧
      v.IsFloat64 = false)
    (hs : ctx.stack = v :: rest) :
    ExecuteNeg ctx = .ok { ctx with stack := rest } := by
  obtain ⟨h1, h2, h3, h4⟩ := hnum
  have hp := PopStack_eq ctx v rest hs
  unfold ExecuteNeg
  rw [hp]
  cases v with
  | int32 i => simp [Value.IsInt32] at h1
  | int64 i => simp [Value.IsInt64] at h2
  | float32 f => simp [Value.IsFloat32] at h3
  | float64 f => simp [Value.IsFloat64] at h4
  | null => rfl
  | bool b => rfl
  | str s => rfl
  | obj o => rfl

/-- A frame with the given operand stack (top first) over `dummyMethod`. -/
def frameWith (stack : List Value) : ExecutionContext :=
  { method := dummyMethod, stack := stack }

theorem C10_witness :
    ExecuteNeg (frameWith [Value.str "x".toList, Value.int32 7]) =
      .ok (frameWith [Value.int32 7]) :=
  C10_neg_nonnumeric_silently_pops
    (frameWith [Value.str "x".toList, Value.int32 7])
    (Value.str "x".toList) [Value.int32 7]
    ⟨rfl, rfl, rfl, rfl⟩ rfl

/-! ## C2 — `add` with a string operand -/

/-- C2 counterexample: with right operand `int32 5` and left operand the
string `"x"`, the claim predicts the push of the display-string concatenation
`"x5"`; the code instead calls the typed accessor `AsString()` on both
operands (instruction_executor.cpp:983) and faults with `TypeMismatch` on
the non-string side. -/
theorem C2_counterexample :
    ExecuteAdd (frameWith [Value.int32 5, Value.str "x".toList]) =
      .error .typeMismatch := rfl

/-- C2 amended: `add` concatenates only when *both* operands are strings (and
then the result is also the concatenation of their display strings); when
exactly one operand is a string the instruction fails with `TypeMismatch`
from the `AsString` accessor. -/
theorem C2_add_string_rule (ctx : ExecutionContext) (a b : Str)
    (rest : List Value)
    (hs : ctx.stack = Value.str b :: Value.str a :: rest) :
    ExecuteAdd ctx = .ok { ctx with stack := Value.str (a ++ b) :: rest } ∧
    (∀ (ctx' : ExecutionContext) (v : Value) (rest' : List Value),
      v.IsString = false → ctx'.stack = v :: Value.str a :: rest' →
      ExecuteAdd ctx' = .error .typeMismatch) ∧
    (∀ (ctx' : ExecutionContext) (v : Value) (rest' : List Value),
      v.IsString = false → ctx'.stack = Value.str b :: v :: rest' →
      ExecuteAdd ctx' = .error .typeMismatch) := by
  refine ⟨?_, ?_, ?_⟩
  · have h1 := PopStack_eq ctx (Value.str b) (Value.str a :: rest) hs
    unfold ExecuteAdd
    rw [h1]
    rfl
  · intro ctx' v rest' hv hs'
    have h1 := PopStack_eq ctx' v (Value.str a :: rest') hs'
    unfold ExecuteAdd
    rw [h1]
    cases v with
    | str s => simp [Value.IsString] at hv
    | null => rfl
    | int32 i => rfl
    | int64 i => rfl
    | float32 f => rfl
    | float64 f => rfl
    | bool x => rfl
    | obj o => rfl
  · intro ctx' v rest' hv hs'
    have h1 := PopStack_eq ctx' (Value.str b) (v :: rest') hs'
    unfold ExecuteAdd
    rw [h1]
    cases v with
    | str s => simp [Value.IsString] at hv
    | null => rfl
    | int32 i => rfl
    | int64 i => rfl
    | float32 f => rfl
    | float64 f => rfl
    | bool x => rfl
    | obj o => rfl

theorem C2_witness :
    ExecuteAdd (frameWith [Value.str "cd".toList, Value.str "ab".toList]) =
      .ok (frameWith [Value.str "abcd".toList]) :=
  (C2_add_string_rule
    (frameWith [Value.str "cd".toList, Value.str "ab".toList])
    "ab".toList "cd".toList [] rfl).1

/-! ## C7 — body forms are not mutually exclusive -/

/-- A method that carries a native implementation. -/
def nativeOnlyMethod : MethodData :=
  { name := "F".toList, returnType := voidTR, isStatic := true,
    nativeImpl := some ⟨0⟩ }

/-- A method that carries an instruction body. -/
def instrOnlyMethod : MethodData :=
  { name := "G".toList, returnType := voidTR, isStatic := true,
    instructions := [simpleInstr .ret] }

/-- C7 counterexample: `SetInstructions` on a method holding a native
implementation leaves the native implementation in place, and `SetNativeImpl`
on a method holding instructions leaves the instructions in place — after
either mutation *both* body forms are present, refuting the claimed
invariant. -/
theorem C7_counterexample :
    ((nativeOnlyMethod.SetInstructions [simpleInstr .ret]).HasInstructions = true ∧
      (nativeOnlyMethod.SetInstructions [simpleInstr .ret]).nativeImpl = some ⟨0⟩) ∧
    ((instrOnlyMethod.SetNativeImpl ⟨1⟩).HasInstructions = true ∧
      (instrOnlyMethod.SetNativeImpl ⟨1⟩).nativeImpl = some ⟨1⟩) :=
  ⟨⟨rfl, rfl⟩, ⟨rfl, rfl⟩⟩

/-- C7 amended: `SetInstructions` replaces the instruction list and
`SetNativeImpl` installs the native implementation, but neither mutator
clears the other body form; a method can hold both at once. -/
theorem C7_mutators_do_not_clear (m : MethodData) (instrs : List Instruction)
    (t : NativeTag) :
    (m.SetInstructions instrs).nativeImpl = m.nativeImpl ∧
    (m.SetInstructions instrs).instructions = instrs ∧
    (m.SetNativeImpl t).instructions = m.instructions ∧
    (m.SetNativeImpl t).nativeImpl = some t :=
  ⟨rfl, rfl, rfl, rfl⟩

/-! ## C6 — `get_argument("this")` in a static frame -/

/-- C6 counterexample: in the frame of a static method (no `this` set),
`GetArgument("this")` returns `Value(_this)` — the *object-variant* Value
wrapping the null pointer (objectir_runtime.cpp:645-656 with
objectir_runtime.cpp:352) — and `IsNull()` on that value is false, refuting
the claim that it returns the null Value. -/
theorem C6_counterexample :
    (ExecutionContext.create nativeOnlyMethod).GetArgumentName "this".toList
        = .ok (Value.obj none) ∧
      Value.IsNull (Value.obj none) = false ∧
      Value.IsObject (Value.obj none) = true :=
  ⟨rfl, rfl, rfl⟩

/-- C6 amended: `GetArgument` with the reserved name `this` always returns
the object-variant `Value` wrapping the frame's current `this` pointer; for a
freshly created frame (as built for a static invocation) that pointer is
null, and the returned value has `IsNull() = false` and `IsObject() = true`. -/
theorem C6_get_this_rule (ctx : ExecutionContext) (m : MethodData) :
    ctx.GetArgumentName "this".toList = .ok (Value.obj ctx.thisRef) ∧
    (ExecutionContext.create m).GetArgumentName "this".toList
        = .ok (Value.obj none) ∧
    Value.IsNull (Value.obj none) = false :=
  ⟨rfl, rfl, rfl⟩

/-! ## C4 — integer division by zero -/

/-- The method `[ldi4 10, ldi4 0, div, ret]` of scenario S6. -/
def divZeroMethod : MethodData :=
  { name := "DivZero".toList, returnType := int32TR, isStatic := true,
    instructions :=
      [ldi4Instr 10, ldi4Instr 0, simpleInstr .div, simpleInstr .ret] }

/-- C4: executing `[ldi4 10, ldi4 0, div, ret]` fails with `DivideByZero`
and the VM carried in the fault is the entry VM — in particular its output
writer is untouched.  In general a `div` whose divisor is int32 0 or int64 0
faults with `DivideByZero` before pushing any result, and a `div` whose two
operands are floats never traps. -/
theorem C4_divide_by_zero
    (vm : VMState) (ctx : ExecutionContext) (v a : Value) (rest : List Value) :
    (ExecuteInstructions 100 divZeroMethod.instructions none []
        (ExecutionContext.create divZeroMethod) vm []
      = .error (.divisionByZero, vm)) ∧
    ((isZeroInt32 v = true ∨ isZeroInt64 v = true) →
      ctx.stack = v :: a :: rest → ExecuteDiv ctx = .error .divisionByZero) ∧
    ((v.IsFloat32 = true ∨ v.IsFloat64 = true) →
      (a.IsFloat32 = true ∨ a.IsFloat64 = true) →
      ctx.stack = v :: a :: rest → ∃ ctx', ExecuteDiv ctx = .ok ctx') := by
  refine ⟨rfl, ?_, ?_⟩
  · intro hz hs
    have h1 := PopStack_eq ctx v (a :: rest) hs
    unfold ExecuteDiv
    rw [h1]
    rcases hz with hz | hz
    · cases v with
      | int32 i => simp only [isZeroInt32] at hz; rw [show Value.int32 i = Value.int32 i from rfl]; simp [isZeroInt32, hz, Bind.bind, Except.bind, ExecutionContext.PopStack]
      | int64 i => simp [isZeroInt32] at hz
      | null => simp [isZeroInt32] at hz
      | float32 f => simp [isZeroInt32] at hz
      | float64 f => simp [isZeroInt32] at hz
      | bool b => simp [isZeroInt32] at hz
      | str s => simp [isZeroInt32] at hz
      | obj o => simp [isZeroInt32] at hz
    · cases v with
      | int64 i => simp only [isZeroInt64] at hz; simp [isZeroInt32, isZeroInt64, hz, Bind.bind, Except.bind, ExecutionContext.PopStack]
      | int32 i => simp [isZeroInt64] at hz
      | null => simp [isZeroInt64] at hz
      | float32 f => simp [isZeroInt64] at hz
      | float64 f => simp [isZeroInt64] at hz
      | bool b => simp [isZeroInt64] at hz
      | str s => simp [isZeroInt64] at hz
      | obj o => simp [isZeroInt64] at hz
  · intro hb ha hs
    have h1 := PopStack_eq ctx v (a :: rest) hs
    unfold ExecuteDiv
    rw [h1]
    cases v with
    | float32 f =>
      cases a with
      | float32 g => exact ⟨_, rfl⟩
      | float64 g => exact ⟨_, rfl⟩
      | null => simp [Value.IsFloat32, Value.IsFloat64] at ha
      | int32 i => simp [Value.IsFloat32, Value.IsFloat64] at ha
      | int64 i => simp [Value.IsFloat32, Value.IsFloat64] at ha
      | bool x => simp [Value.IsFloat32, Value.IsFloat64] at ha
      | str s => simp [Value.IsFloat32, Value.IsFloat64] at ha
      | obj o => simp [Value.IsFloat32, Value.IsFloat64] at ha
    | float64 f =>
      cases a with
      | float32 g => exact ⟨_, rfl⟩
      | float64 g => exact ⟨_, rfl⟩
      | null => simp [Value.IsFloat32, Value.IsFloat64] at ha
      | int32 i => simp [Value.IsFloat32, Value.IsFloat64] at ha
      | int64 i => simp [Value.IsFloat32, Value.IsFloat64] at ha
      | bool x => simp [Value.IsFloat32, Value.IsFloat64] at ha
      | str s => simp [Value.IsFloat32, Value.IsFloat64] at ha
      | obj o => simp [Value.IsFloat32, Value.IsFloat64] at ha
    | null => simp [Value.IsFloat32, Value.IsFloat64] at hb
    | int32 i => simp [Value.IsFloat32, Value.IsFloat64] at hb
    | int64 i => simp [Value.IsFloat32, Value.IsFloat64] at hb
    | bool x => simp [Value.IsFloat32, Value.IsFloat64] at hb
    | str s => simp [Value.IsFloat32, Value.IsFloat64] at hb
    | obj o => simp [Value.IsFloat32, Value.IsFloat64] at hb

/-- A VM with one pre-existing output chunk. -/
def vmWithOutput : VMState := { output := ["pre".toList] }

theorem C4_witness :
    (ExecuteInstructions 100 divZeroMethod.instructions none []
        (ExecutionContext.create divZeroMethod) vmWithOutput []
      = .error (.divisionByZero, vmWithOutput)) ∧
    ExecuteDiv (frameWith [Value.int32 0, Value.int32 10])
      = .error .divisionByZero ∧
    (∃ ctx', ExecuteDiv (frameWith [Value.float64 0.0, Value.float64 1.0])
      = .ok ctx') := by
  refine ⟨?_, ?_, ?_⟩
  · exact (C4_divide_by_zero vmWithOutput (frameWith [])
      Value.null Value.null []).1
  · exact (C4_divide_by_zero vmWithOutput
      (frameWith [Value.int32 0, Value.int32 10])
      (Value.int32 0) (Value.int32 10) []).2.1 (Or.inl rfl) rfl
  · exact (C4_divide_by_zero vmWithOutput
      (frameWith [Value.float64 0.0, Value.float64 1.0])
      (Value.float64 0.0) (Value.float64 1.0) []).2.2 (Or.inr rfl)
      (Or.inr rfl) rfl

/-! ## C5 — `ret`, end-of-list, and the void-return rule -/

/-- C5: when the dispatch loop reaches a `ret` instruction the returned value
is the popped stack top if the operand stack is non-empty and the null Value
otherwise; the same pop-or-null rule applies when the instruction pointer
runs past the end of the list; and both static invokers return the null Value
to the caller when the method's declared return type is void, regardless of
the residual stack. -/
theorem C5_ret_popOrNull_and_void_rule :
    (∀ (fuel : Nat) (instrs : List Instruction) (labelMap : List (Str × Nat))
      (ip : Nat) (ctx : ExecutionContext) (vm : VMState) (instr : Instruction),
      instrs.get? ip = some instr → instr.opCode = .ret →
      ExecLoop (fuel + 1) instrs labelMap ip ctx vm =
        .ok ((popOrNull ctx).1, (popOrNull ctx).2, vm)) ∧
    (∀ (fuel : Nat) (instrs : List Instruction) (labelMap : List (Str × Nat))
      (ip : Nat) (ctx : ExecutionContext) (vm : VMState),
      instrs.get? ip = none →
      ExecLoop (fuel + 1) instrs labelMap ip ctx vm =
        .ok ((popOrNull ctx).1, (popOrNull ctx).2, vm)) ∧
    (∀ (fuel : Nat) (vm : VMState) (cls : ClassChain) (target : CallTarget)
      (args : List Value) (v : Value) (vm' : VMState) (method : MethodData),
      InvokeStaticTarget fuel vm cls target args = .ok (v, vm') →
      ResolveOverloadOrThrow cls target true = .ok method →
      isVoidReturnType method.returnType = true → v = Value.null) ∧
    (∀ (fuel : Nat) (vm : VMState) (cls : ClassChain) (name : Str)
      (args : List Value) (v : Value) (vm' : VMState) (method : MethodData),
      InvokeStaticByName fuel vm cls name args = .ok (v, vm') →
      LookupMethod cls name = some method →
      isVoidReturnType method.returnType = true → v = Value.null) := by
  refine ⟨?_, ?_, ?_, ?_⟩
  · intro fuel instrs labelMap ip ctx vm instr hget hret
    simp only [ExecLoop, interpAt, interpSucc, hget, hret, if_pos]
    cases h : ctx.stack <;>
      simp [ExecutionContext.PopStack, popOrNull, h]
  · intro fuel instrs labelMap ip ctx vm hget
    simp only [ExecLoop, interpAt, interpSucc, hget]
    cases h : ctx.stack <;>
      simp [ExecutionContext.PopStack, popOrNull, h]
  · intro fuel vm cls target args v vm' method hinv hres hvoid
    cases fuel with
    | zero => simp [InvokeStaticTarget, interpAt, interpZero] at hinv
    | succ fuel =>
      simp only [InvokeStaticTarget, interpAt, interpSucc, hres, withVM,
        Bind.bind, Except.bind] at hinv
      cases hni : method.nativeImpl with
      | some t => simp [hni] at hinv
      | none =>
        simp only [hni] at hinv
        cases hHI : method.HasInstructions with
        | false => simp [hHI] at hinv
        | true =>
          simp only [hHI, if_pos] at hinv
          cases hloop : (interpAt fuel).loop method.instructions
              method.labelMap 0
              ((((ExecutionContext.create method).SetArguments args).SetThis
                none).SetArguments args) vm with
          | error e => rw [hloop] at hinv; simp at hinv
          | ok r =>
            rw [hloop] at hinv
            simp only [hvoid, if_pos] at hinv
            cases hinv
            rfl
  · intro fuel vm cls name args v vm' method hinv hres hvoid
    simp only [InvokeStaticByName, hres] at hinv
    cases hni : method.nativeImpl with
    | some t => simp [hni] at hinv
    | none =>
      simp only [hni] at hinv
      cases hHI : method.HasInstructions with
      | false => simp [hHI] at hinv
      | true =>
        simp only [hHI, if_pos, Bind.bind, Except.bind] at hinv
        cases hloop : ExecuteInstructions fuel method.instructions none args
            ((ExecutionContext.create method).SetArguments args) vm
            method.labelMap with
        | error e => rw [hloop] at hinv; simp at hinv
        | ok r =>
          rw [hloop] at hinv
          simp only [hvoid, if_pos] at hinv
          cases hinv
          rfl

theorem C5_witness :
    ExecLoop 1 [simpleInstr .ret] [] 0 (frameWith [Value.int32 3]) {} =
      .ok (Value.int32 3, frameWith [], ({} : VMState)) := by
  have h := C5_ret_popOrNull_and_void_rule.1 0 [simpleInstr .ret] [] 0
    (frameWith [Value.int32 3]) {} (simpleInstr .ret) rfl rfl
  simpa [popOrNull, frameWith] using h

/-! ## C1 — the counted loop and the binary-`while` setup collection -/

/-- The specification-shaped description of the collected run: the maximal
suffix of the instructions before the `while` consisting of load-class
instructions. -/
def maxLoadSuffix (l : List Instruction) : List Instruction :=
  (l.reverse.takeWhile isLoadClass).reverse

theorem maxLoadSuffix_append_load (l : List Instruction) (x : Instruction)
    (hx : isLoadClass x = true) :
    maxLoadSuffix (l ++ [x]) = maxLoadSuffix l ++ [x] := by
  simp [maxLoadSuffix, List.takeWhile_cons, hx]

theorem maxLoadSuffix_append_nonload (l : List Instruction) (x : Instruction)
    (hx : isLoadClass x = false) : maxLoadSuffix (l ++ [x]) = [] := by
  simp [maxLoadSuffix, List.takeWhile_cons, hx]

theorem collectSetupAux_spec (instrs : List Instruction) :
    ∀ (ip : Nat) (acc : List Instruction), ip ≤ instrs.length →
      collectSetupAux instrs ip acc = maxLoadSuffix (instrs.take ip) ++ acc := by
  intro ip
  induction ip with
  | zero => intro acc _; simp [collectSetupAux, maxLoadSuffix]
  | succ n ih =>
    intro acc h
    have hlt : n < instrs.length := Nat.lt_of_succ_le h
    have hprev : instrs.get? n = some (instrs.get ⟨n, hlt⟩) :=
      List.get?_eq_get hlt
    have hge : instrs[n]? = some (instrs.get ⟨n, hlt⟩) := by
      rw [← List.get?_eq_getElem?]
      exact hprev
    have htake : instrs.take (n + 1) = instrs.take n ++ [instrs.get ⟨n, hlt⟩] := by
      rw [List.take_succ, hge]
      rfl
    simp only [collectSetupAux, hprev]
    split
    · next hl =>
      rw [ih _ (Nat.le_of_lt hlt), htake, maxLoadSuffix_append_load _ _ hl]
      simp
    · next hl =>
      rw [htake, maxLoadSuffix_append_nonload _ _ (by simpa using hl)]
      simp

/-- The name of the loop counter local. -/
def iLocal : Str := "i".toList

/-- The `Count() → int32` method of scenario S2: body `[ldi4 0, stloc i,
ldloc i, ldi4 10, while {binary clt} [ldloc i, ldi4 1, add, stloc i],
ldloc i, ret]`. -/
def countMethod : MethodData :=
  { name := "Count".toList, returnType := int32TR, isStatic := true,
    locals := [(iLocal, int32TR)],
    instructions :=
      [ldi4Instr 0, stlocInstr iLocal, ldlocInstr iLocal, ldi4Instr 10,
       whileBinaryInstr .clt
         [ldlocInstr iLocal, ldi4Instr 1, simpleInstr .add, stlocInstr iLocal],
       ldlocInstr iLocal, simpleInstr .ret] }

/-- The class carrying `Count`. -/
def countClass : ClassChain :=
  [{ name := "Program".toList, methods := [countMethod] }]

/-- The call target used to invoke `Count`. -/
def countTarget : CallTarget :=
  { declaringType := "Program".toList, name := "Count".toList,
    returnType := "int32".toList, parameterTypes := [] }

/-- C1: invoking `Count` returns the int32 value 10 — the executor replays
the two preceding loads (`ldloc i`, `ldi4 10`) before every iteration's
condition test, pops right and left, re-pushes them, applies `clt` and pops
the boolean; and in general the run collected for a binary-condition `while`
at index `ip` is exactly the maximal contiguous suffix of load-class
instructions (`ldloc`, `ldcon`, `ldi4`, `ldi8`, `ldr4`, `ldr8`, `ldtrue`,
`ldfalse`, `ldnull`) of the instructions before `ip`. -/
theorem C1_counted_loop :
    ((InvokeStaticTarget 60 {} countClass countTarget []).map (fun r => r.1)
        = Except.ok (Value.int32 10)) ∧
    (∀ (instrs : List Instruction) (ip : Nat), ip ≤ instrs.length →
      collectSetup instrs ip = maxLoadSuffix (instrs.take ip)) := by
  constructor
  · rfl
  · intro instrs ip h
    have haux := collectSetupAux_spec instrs ip [] h
    simpa [collectSetup] using haux

theorem C1_witness :
    collectSetup countMethod.instructions 4 =
      [ldlocInstr iLocal, ldi4Instr 10] := by
  have h := C1_counted_loop.2 countMethod.instructions 4 (by decide)
  rw [h]
  rfl

/-! ## C3 — overload resolution -/

/-- `F(int32) → int32` returning 1. -/
def fIntMethod : MethodData :=
  { name := "F".toList, returnType := int32TR, isStatic := true,
    parameters := [("a".toList, int32TR)],
    instructions := [ldi4Instr 1, simpleInstr .ret] }

/-- `F(string) → int32` returning 2. -/
def fStrMethod : MethodData :=
  { name := "F".toList, returnType := int32TR, isStatic := true,
    parameters := [("s".toList, stringTR)],
    instructions := [ldi4Instr 2, simpleInstr .ret] }

/-- The class `M` with the two static overloads of `F`. -/
def overloadClass : ClassChain :=
  [{ name := "M".toList, methods := [fIntMethod, fStrMethod] }]

/-- A call target `M.F` with the given parameter-type list. -/
def fTarget (pts : List Str) : CallTarget :=
  { declaringType := "M".toList, name := "F".toList,
    returnType := "int32".toList, parameterTypes := pts }

/-- C3: invoking `F` with parameter types `["System.String"]` returns 2, with
`["int"]` returns 1, and with empty parameter types fails
`AmbiguousOverload`; and whenever resolution with explicit parameter types
succeeds, the chosen method is one of the collected same-name candidates, is
static (as required), and has the requested parameter count. -/
theorem C3_overload_dispatch :
    ((InvokeStaticTarget 10 {} overloadClass
        (fTarget ["System.String".toList]) [Value.str "x".toList]).map
          (fun r => r.1) = Except.ok (Value.int32 2)) ∧
    ((InvokeStaticTarget 10 {} overloadClass
        (fTarget ["int".toList]) [Value.int32 5]).map
          (fun r => r.1) = Except.ok (Value.int32 1)) ∧
    (InvokeStaticTarget 10 {} overloadClass (fTarget []) [Value.int32 5]
      = .error (.ambiguousOverload, {})) ∧
    (∀ (cls : ClassChain) (target : CallTarget) (m : MethodData),
      target.parameterTypes ≠ [] →
      ResolveOverloadOrThrow cls target true = .ok m →
      m ∈ CollectMethodsByName cls target.name ∧ m.isStatic = true ∧
        m.parameters.length = target.parameterTypes.length) := by
  refine ⟨rfl, rfl, rfl, ?_⟩
  intro cls target m hne hres
  have hpe : target.parameterTypes.isEmpty = false := by
    cases hpt : target.parameterTypes with
    | nil => exact absurd hpt hne
    | cons a l => rfl
  simp only [ResolveOverloadOrThrow, hpe] at hres
  by_cases hemp : (CollectMethodsByName cls target.name).isEmpty
  · simp [hemp] at hres
  · rw [if_neg (by simpa using hemp), if_neg (by simp [hpe])] at hres
    have hlenreq :
        (NormalizeTypeNames target.parameterTypes).length =
          target.parameterTypes.length := by
      simp [NormalizeTypeNames]
    split at hres
    · next m' heq =>
      cases hres
      have hmem := heq.symm ▸ (List.mem_singleton.mpr rfl : m ∈ [m])
      have := List.mem_filter.mp hmem
      obtain ⟨hmm, hp⟩ := this
      simp only [Bool.and_eq_true, Bool.or_eq_true, Bool.not_eq_true',
        decide_eq_true_eq] at hp
      exact ⟨hmm, by simpa using hp.1.1, by rw [← hlenreq]; exact hp.1.2⟩
    · next heq => simp at hres
    · next heq =>
      split at hres
      · next m' heq2 =>
        cases hres
        have hmem := heq2.symm ▸ (List.mem_singleton.mpr rfl : m ∈ [m])
        have := List.mem_filter.mp hmem
        obtain ⟨hmm, hp⟩ := this
        simp only [Bool.and_eq_true, Bool.or_eq_true, Bool.not_eq_true',
          decide_eq_true_eq] at hp
        exact ⟨hmm, by simpa using hp.1, by rw [← hlenreq]; exact hp.2⟩
      · next heq2 => simp at hres

theorem C3_witness :
    fIntMethod ∈ CollectMethodsByName overloadClass "F".toList ∧
      fIntMethod.isStatic = true ∧
      fIntMethod.parameters.length = 1 := by
  have h := C3_overload_dispatch.2.2.2 overloadClass (fTarget ["int".toList])
    fIntMethod (by decide) rfl
  exact h

/-! ## C8 — does an executing frame snapshot its instruction list?

In the source, the executing frame reads the method's instruction vector
through a reference: `Method::GetInstructions` returns
`const std::vector<Instruction>&` (objectir_runtime.hpp:307), the invoker
passes it straight to `ExecuteInstructions`, whose `instructions` parameter
is itself a `const std::vector<Instruction>&`
(instruction_executor.cpp:755-761) — no copy is ever taken.
`Method::SetInstructions` assigns that same vector
(objectir_runtime.cpp:466-468), so after a plugin calls it mid-execution the
dispatch loop's `instructions[ip]` reads the *new* list.  `ExecLoopLive`
embeds this: the fetch at each step goes through the current body, and the
`call` that reaches the patching plugin replaces the body.  `ExecLoopSnapshot`
is the second definition of the refinement pair, written from the spec's
words ("frames hold their own list … a snapshot acquired at frame
creation"): identical except that the frame keeps fetching from the list it
started with.  Both restrict the dispatcher to the fragment the comparison
needs (no branches or structured loops in the demonstrating programs). -/

/-- A `call` instruction whose target is the patching plugin entry. -/
def patchCallInstr (tgt : CallTarget) : Instruction :=
  .mk { opCode := .call, callTarget := some tgt } none none

/-- Does this instruction invoke the patching plugin? -/
def isPatchCall (i : Instruction) (tgt : CallTarget) : Bool :=
  (i.opCode == OpCode.call) &&
    match i.core.callTarget with
    | some t => (t.declaringType == tgt.declaringType) && (t.name == tgt.name)
    | none => false

/-- The dispatch-loop fragment with the source's live-reference fetch: the
patch call swaps the body that subsequent fetches read. -/
def ExecLoopLive (fuel : Nat) (body : List Instruction) (patchTgt : CallTarget)
    (patchBody : List Instruction) (ip : Nat) (ctx : ExecutionContext)
    (vm : VMState) :
    Except (RuntimeError × VMState) (Value × ExecutionContext × VMState) :=
  match fuel with
  | 0 => .error (.fuelExhausted, vm)
  | fuel + 1 =>
    match body.get? ip with
    | none =>
      match ctx.PopStack with
      | .ok (v, ctx) => .ok (v, ctx, vm)
      | .error _ => .ok (.null, ctx, vm)
    | some instr =>
      if instr.opCode = .ret then
        match ctx.PopStack with
        | .ok (v, ctx) => .ok (v, ctx, vm)
        | .error _ => .ok (.null, ctx, vm)
      else if isPatchCall instr patchTgt then
        ExecLoopLive fuel patchBody patchTgt patchBody (ip + 1) ctx vm
      else do
        match ← Execute fuel instr ctx vm with
        | .normal ctx vm =>
          ExecLoopLive fuel body patchTgt patchBody (ip + 1) ctx vm
        | .brkSig _ vm => .error (.brkSignal, vm)
        | .contSig _ vm => .error (.contSignal, vm)

/-- Modelled from the spec: the same dispatch-loop fragment under the spec's
claimed snapshot semantics — the frame's fetches stay on the list acquired at
frame creation even after the patch call replaces the method's body. -/
def ExecLoopSnapshot (fuel : Nat) (body : List Instruction)
    (patchTgt : CallTarget) (patchBody : List Instruction) (ip : Nat)
    (ctx : ExecutionContext) (vm : VMState) :
    Except (RuntimeError × VMState) (Value × ExecutionContext × VMState) :=
  match fuel with
  | 0 => .error (.fuelExhausted, vm)
  | fuel + 1 =>
    match body.get? ip with
    | none =>
      match ctx.PopStack with
      | .ok (v, ctx) => .ok (v, ctx, vm)
      | .error _ => .ok (.null, ctx, vm)
    | some instr =>
      if instr.opCode = .ret then
        match ctx.PopStack with
        | .ok (v, ctx) => .ok (v, ctx, vm)
        | .error _ => .ok (.null, ctx, vm)
      else if isPatchCall instr patchTgt then
        ExecLoopSnapshot fuel body patchTgt patchBody (ip + 1) ctx vm
      else do
        match ← Execute fuel instr ctx vm with
        | .normal ctx vm =>
          ExecLoopSnapshot fuel body patchTgt patchBody (ip + 1) ctx vm
        | .brkSig _ vm => .error (.brkSignal, vm)
        | .contSig _ vm => .error (.contSignal, vm)

/-- The patching plugin's call target. -/
def patchTgtC : CallTarget :=
  { declaringType := "PluginHost".toList, name := "Patch".toList,
    returnType := "void".toList, parameterTypes := [] }

/-- The body the frame starts executing: patch, then load 1, then return. -/
def oldBody : List Instruction :=
  [patchCallInstr patchTgtC, ldi4Instr 1, simpleInstr .ret]

/-- The body installed by the patch: nop, then load 2, then return. -/
def newBody : List Instruction :=
  [simpleInstr .nop, ldi4Instr 2, simpleInstr .ret]

/-- C8 counterexample: a frame executing `[patch, ldi4 1, ret]` whose patch
swaps the body to `[nop, ldi4 2, ret]` returns 2 under the source's
live-reference fetch but would return 1 under the claimed snapshot
semantics — the swap does change the sequence of instructions the frame
executes. -/
theorem C8_counterexample :
    ((ExecLoopLive 10 oldBody patchTgtC newBody 0 (frameWith []) {}).map
        (fun r => r.1) = Except.ok (Value.int32 2)) ∧
    ((ExecLoopSnapshot 10 oldBody patchTgtC newBody 0 (frameWith []) {}).map
        (fun r => r.1) = Except.ok (Value.int32 1)) ∧
    Value.int32 2 ≠ Value.int32 1 := by
  refine ⟨rfl, rfl, ?_⟩
  intro h
  simp at h

/-- C8 amended: the executing frame reads the method's instruction list
through a live reference, so replacing the list mid-execution redirects every
subsequent fetch of that frame to the new list (while the spec's snapshot
reading would keep it on the old one). -/
theorem C8_live_reference_fetch (fuel : Nat) (body patchBody : List Instruction)
    (tgt : CallTarget) (ip : Nat) (ctx : ExecutionContext) (vm : VMState)
    (instr : Instruction) (hget : body.get? ip = some instr)
    (hnr : instr.opCode ≠ .ret) (hp : isPatchCall instr tgt = true) :
    ExecLoopLive (fuel + 1) body tgt patchBody ip ctx vm =
      ExecLoopLive fuel patchBody tgt patchBody (ip + 1) ctx vm ∧
    ExecLoopSnapshot (fuel + 1) body tgt patchBody ip ctx vm =
      ExecLoopSnapshot fuel body tgt patchBody (ip + 1) ctx vm := by
  have hge : body[ip]? = some instr := by
    rw [← List.get?_eq_getElem?]
    exact hget
  constructor
  · simp [ExecLoopLive, hge, hnr, hp]
  · simp [ExecLoopSnapshot, hge, hnr, hp]

theorem C8_witness :
    ExecLoopLive 10 oldBody patchTgtC newBody 0 (frameWith []) {} =
      ExecLoopLive 9 newBody patchTgtC newBody 1 (frameWith []) {} ∧
    ExecLoopSnapshot 10 oldBody patchTgtC newBody 0 (frameWith []) {} =
      ExecLoopSnapshot 9 oldBody patchTgtC newBody 1 (frameWith []) {} :=
  C8_live_reference_fetch 9 oldBody newBody patchTgtC 0 (frameWith []) {}
    (patchCallInstr patchTgtC) rfl (by decide) (by decide)

end ObjectIR
